import Mathlib

/-!
Verification development for the FlashcardMCP flashcard pipeline.

This file shallowly embeds the data-normalization and validation pipeline of
the repository (src/src/utils/json_validator.py, src/src/utils/csv_reader.py,
the template-resolution and color-merging logic of
src/src/handlers/card_generator.py and src/src/handlers/pdf_generator.py, and
the configuration constants of config.py) and proves properties of the
embedded code.

Modeling conventions:
- Python strings are Lean `String`s; `str.strip`, `str.split`, `str.join`,
  `str.startswith` are modeled over the underlying character lists.
- Python `dict` inputs are modeled as structures of `Option` fields
  (`none` = key absent).  Inputs are modeled at the well-typed level: every
  present value has the declared pydantic type.
- pydantic v2 semantics that matter here: field validators run in field
  declaration order, they do NOT run on default values, and the
  validate-style entry point wraps the first failure into a result record.
- `datetime` values are modeled by an abstract timestamp `Nat`; an ISO-8601
  string that parses back to timestamp `t` is modeled by the constructor
  `DatetimeInput.isoGood t`, and unparsable strings by `DatetimeInput.isoBad`.
-/

deriving instance DecidableEq for Except

namespace FlashcardMCP

/-! ## Python string primitives -/

/-- Whitespace test used by Python `str.strip` / regex `\s` (ASCII range). -/
def pyIsSpace (c : Char) : Bool :=
  c = ' ' || c = '\t' || c = '\n' || c = '\r' || c = Char.ofNat 11 || c = Char.ofNat 12

/-- Model of Python `str.strip` on a character list: drop whitespace from
both ends. -/
def pyStripL (l : List Char) : List Char :=
  List.rdropWhile pyIsSpace (List.dropWhile pyIsSpace l)

/-- Model of Python `str.strip`. -/
def pyStrip (s : String) : String := String.mk (pyStripL s.data)

/-- Model of Python `s.startswith(c)` for a single-character pattern: the
first character equals `c`. -/
def pyStartsWith (s : String) (c : Char) : Bool := s.data.head? = some c

/-- Little-endian decimal digit characters of `n`, by repeated division by
ten, exactly as Python's integer-to-string conversion produces them.  The
fuel argument makes the recursion structural; `fuel = n` is always enough. -/
def natDecAux (fuel : Nat) (n : Nat) : List Char :=
  match fuel with
  | 0 => []
  | fuel + 1 => if n = 0 then [] else Nat.digitChar (n % 10) :: natDecAux fuel (n / 10)

/-- Model of Python `str(n)` for a non-negative integer `n`. -/
def pyStr (n : Nat) : String :=
  if n = 0 then "0" else String.mk ((natDecAux n n).reverse)

/-- Model of Python `s.split(sep)` for a one-character separator: cut the
character list at every occurrence, keeping empty pieces, as Python does for
an explicit separator. -/
def pySplitCharL (sep : Char) : List Char → List String
  | [] => [""]
  | c :: rest =>
    let tail := pySplitCharL sep rest
    if c = sep then "" :: tail
    else
      match tail with
      | [] => [String.mk [c]]
      | p :: ps => String.mk (c :: p.data) :: ps

/-- Model of Python `s.split(',')`. -/
def pySplitComma (s : String) : List String := pySplitCharL ',' s.data

/-- Model of Python `sep.join(parts)`. -/
def pyJoin (sep : String) : List String → String
  | [] => ""
  | [p] => p
  | p :: rest => p ++ sep ++ pyJoin sep rest

/-- Model of Python posix `os.path.basename`: the part after the last `/`. -/
def pyBasename (p : String) : String :=
  (pySplitCharL '/' p.data).getLastD ""

/-- Drop a trailing `.ext` suffix from a character list that has no leading
dots (helper for `pySplitextStem`). -/
def dropLastDotSuffix (cs : List Char) : List Char :=
  match (cs.reverse).dropWhile (fun c => !(c = '.')) with
  | [] => cs
  | _ :: rest => rest.reverse

/-- Model of `os.path.splitext(b)[0]` on a basename: remove the last
dot-extension, where leading dots never start an extension. -/
def pySplitextStem (b : String) : String :=
  let cs := b.data
  let lead := cs.takeWhile (fun c => c = '.')
  String.mk (lead ++ dropLastDotSuffix (cs.drop lead.length))

/-! ## config.py -/

/-- config.py `FLASHCARD_CONFIG['available_themes']`. -/
def availableThemes : List String := ["light", "dark", "basic", "advance", "detail"]

/-- config.py `FLASHCARD_CONFIG['available_templates']`, as template name to
template file path. -/
def availableTemplates : List (String × String) :=
  [("default", "default.html"), ("minimal", "minimal.html"), ("listen", "listen.html")]

/-- config.py `JSON_VALIDATION_CONFIG['max_cards']`. -/
def maxCards : Nat := 1000

/-- config.py `JSON_VALIDATION_CONFIG['max_content_length']`. -/
def maxContentLength : Nat := 10000

/-- config.py `JSON_VALIDATION_CONFIG['max_tags_per_card']`. -/
def maxTagsPerCard : Nat := 10

/-- config.py `JSON_VALIDATION_CONFIG['max_tag_length']`. -/
def maxTagLength : Nat := 50

/-- config.py `FLASHCARD_CONFIG['default_style']['colors']`. -/
def defaultStyleColors : List (String × String) :=
  [("primary", "#007bff"), ("secondary", "#6c757d"), ("background", "#ffffff"),
   ("text", "#333333"), ("card_bg", "#ffffff"), ("card_front_bg", "#ffffff"),
   ("card_back_bg", "#f8f9fa"), ("card_border", "#dddddd")]

/-! ## json_validator.py: input shapes

An arbitrary JSON mapping handed to the validator, at the well-typed level.
`none` means the key is absent from the mapping. -/

/-- One entry of the input `cards` list. -/
structure CardInput where
  id : Option String := none
  front : Option String := none
  back : Option String := none
  tags : Option (List String) := none
deriving DecidableEq, Repr

/-- A value supplied for `metadata.created_at`: a datetime object, an
ISO-8601 string parsing to timestamp `t`, or an unparsable string. -/
inductive DatetimeInput where
  | dtObj (t : Nat)
  | isoGood (t : Nat)
  | isoBad (s : String)
deriving DecidableEq, Repr

/-- The input `metadata` mapping. -/
structure MetadataInput where
  title : Option String := none
  description : Option String := none
  version : Option String := none
  created_at : Option DatetimeInput := none
deriving DecidableEq, Repr

/-- The input `style` mapping (recognized keys only; pydantic ignores
extras). -/
structure StyleInput where
  template : Option String := none
  theme : Option String := none
  colors : Option (List (String × String)) := none
  font : Option String := none
  card_front_font : Option String := none
  card_back_font : Option String := none
  card_width : Option String := none
  card_height : Option String := none
  card_front_background : Option String := none
  card_back_background : Option String := none
  card_front_text_align : Option String := none
  card_back_text_align : Option String := none
  card_border : Option String := none
  card_border_radius : Option String := none
  card_padding : Option String := none
  card_box_shadow : Option String := none
  show_deck_name : Option Bool := none
  show_card_index : Option Bool := none
  deck_name_style : Option String := none
  card_index_style : Option String := none
  compact_typography : Option Bool := none
  front_char_limit : Option (Option Int) := none
  back_char_limit : Option (Option Int) := none
deriving DecidableEq, Repr

/-- The whole input document.  For the `Optional[...]` pydantic fields
`metadata` and `style`, the outer `Option` is key presence and the inner
`Option` is an explicit JSON `null`. -/
structure InputDoc where
  cards : Option (List CardInput) := none
  metadata : Option (Option MetadataInput) := none
  style : Option (Option StyleInput) := none
deriving DecidableEq, Repr

/-! ## json_validator.py: validated models -/

/-- Validated `Card` model. -/
structure Card where
  id : Option String
  front : String
  back : String
  tags : List String
deriving DecidableEq, Repr

/-- Validated `Metadata` model (`created_at` as abstract timestamp). -/
structure Metadata where
  title : String
  description : String
  version : String
  created_at : Option Nat
deriving DecidableEq, Repr

/-- Validated `Style` model. -/
structure Style where
  template : String
  theme : String
  colors : List (String × String)
  font : String
  card_front_font : String
  card_back_font : String
  card_width : String
  card_height : String
  card_front_background : String
  card_back_background : String
  card_front_text_align : String
  card_back_text_align : String
  card_border : String
  card_border_radius : String
  card_padding : String
  card_box_shadow : String
  show_deck_name : Bool
  show_card_index : Bool
  deck_name_style : String
  card_index_style : String
  compact_typography : Bool
  front_char_limit : Option Int
  back_char_limit : Option Int
deriving DecidableEq, Repr

/-- Validated `FlashcardData` model. -/
structure FlashcardData where
  cards : List Card
  metadata : Option Metadata
  style : Option Style
deriving DecidableEq, Repr

/-! ## json_validator.py: field validators -/

/-- Validator `Card.check_empty_string`: reject a `front` that strips to empty. -/
def check_empty_string (v : String) : Except String String :=
  if pyStrip v = "" then Except.error "字符串不能为空或只包含空白字符" else Except.ok v

/-- Validator `Style.validate_theme`: the theme must be a configured theme name. -/
def validate_theme (v : String) : Except String String :=
  if availableThemes.contains v then Except.ok v
  else Except.error ("无效的主题: " ++ v)

/-- Validator `Style.validate_font` (also the body of `validate_background` and
`validate_border`): reject the empty string, return the stripped value. -/
def validate_font (v : String) : Except String String :=
  if v = "" then Except.error "字体值必须是字符串" else Except.ok (pyStrip v)

/-- Validator `Style.validate_background`: same rule as `validate_font`. -/
def validate_background (v : String) : Except String String :=
  if v = "" then Except.error "背景值必须是字符串" else Except.ok (pyStrip v)

/-- Validator `Style.validate_border`: same rule as `validate_font`. -/
def validate_border (v : String) : Except String String :=
  if v = "" then Except.error "边框值必须是字符串" else Except.ok (pyStrip v)

/-- Consume one or more decimal digits (regex `\d+`), returning the rest. -/
def consumeDigits1 (l : List Char) : Option (List Char) :=
  match l with
  | c :: rest => if c.isDigit then some (rest.dropWhile Char.isDigit) else none
  | [] => none

/-- Consume regex `\d+(\.\d+)?`, returning the rest. -/
def consumeNumber (l : List Char) : Option (List Char) :=
  match consumeDigits1 l with
  | none => none
  | some rest =>
    match rest with
    | '.' :: r2 =>
      match consumeDigits1 r2 with
      | some r3 => some r3
      | none => some rest
    | _ => some rest

/-- Consume one of the given unit spellings, returning the rest. -/
def consumeUnit (units : List (List Char)) (l : List Char) : Option (List Char) :=
  match units with
  | [] => none
  | u :: us => if l.take u.length = u then some (l.drop u.length) else consumeUnit us l

/-- The units of the dimension regex in `validate_dimensions`. -/
def dimUnits : List (List Char) :=
  ["px".data, "%".data, "em".data, "rem".data, "vw".data, "vh".data,
   "mm".data, "cm".data, "in".data, "pt".data]

/-- The units of the CSS length regex in `validate_css_length`. -/
def cssUnits : List (List Char) := ["px".data, "%".data, "em".data, "rem".data]

/-- The regex `^\d+(\.\d+)?(px|%|em|rem|vw|vh|mm|cm|in|pt)$` of
`validate_dimensions`, as a committed matcher (the alternatives are
pairwise prefix-free, so no backtracking is needed). -/
def matchDimension (s : String) : Bool :=
  match consumeNumber s.data with
  | some rest =>
    match consumeUnit dimUnits rest with
    | some [] => true
    | _ => false
  | none => false

/-- Consume regex `\d+(\.\d+)?(px|%|em|rem)`, returning the rest. -/
def consumeLenItem (l : List Char) : Option (List Char) :=
  match consumeNumber l with
  | some rest => consumeUnit cssUnits rest
  | none => none

/-- The `(\s+\d+(\.\d+)?(px|%|em|rem))*$` tail of the CSS length regex;
each iteration consumes at least one character, so fuel = length suffices. -/
def matchCssLenLoop (fuel : Nat) (l : List Char) : Bool :=
  match fuel, l with
  | _, [] => true
  | 0, _ => false
  | fuel + 1, c :: rest =>
    if pyIsSpace c then
      match consumeLenItem (rest.dropWhile pyIsSpace) with
      | some r3 => matchCssLenLoop fuel r3
      | none => false
    else false

/-- The regex `^\d+(\.\d+)?(px|%|em|rem)(\s+\d+(\.\d+)?(px|%|em|rem))*$` of
`validate_css_length`. -/
def matchCssLength (s : String) : Bool :=
  match consumeLenItem s.data with
  | some rest => matchCssLenLoop rest.length rest
  | none => false

/-- Validator `Style.validate_dimensions`: strip, then match the dimension regex. -/
def validate_dimensions (v : String) : Except String String :=
  if matchDimension (pyStrip v) then Except.ok (pyStrip v)
  else Except.error "尺寸值格式无效，应为数字+单位（如300px, 50%, 2em, 74.25mm）"

/-- Validator `Style.validate_css_length`: match the CSS length regex on the stripped
value, return the stripped value. -/
def validate_css_length (v : String) : Except String String :=
  if matchCssLength (pyStrip v) then Except.ok (pyStrip v)
  else Except.error "CSS长度值格式无效"

/-- The valid text alignments of `validate_text_align`. -/
def validAligns : List String := ["left", "center", "right", "justify", "start", "end"]

/-- Validator `Style.validate_text_align`. -/
def validate_text_align (v : String) : Except String String :=
  if validAligns.contains v then Except.ok v
  else Except.error ("无效的文本对齐值: " ++ v)

/-- Run a field validator on a supplied value, or take the field default
unvalidated — pydantic v2 does not validate default values. -/
def valField (f : String → Except String String) (inp : Option String) (dflt : String) :
    Except String String :=
  match inp with
  | none => Except.ok dflt
  | some v => f v

/-! ## json_validator.py: model construction -/

/-- The `Style.font` field default. -/
def defaultFont : String := "Arial,  PingFang SC, Microsoft YaHei,  sans-serif"

/-- The `Style.card_front_font` field default — note the trailing space,
kept verbatim from the source. -/
def defaultCardFrontFont : String := "24px/1.2 Arial, sans-serif, "

/-- The `Style.card_back_font` field default. -/
def defaultCardBackFont : String := "18px/1.2 Arial, sans-serif"

/-- Construct a `Card` from one input mapping. -/
def buildCard (c : CardInput) : Except String Card :=
  match c.front with
  | none => Except.error "front: Field required"
  | some f =>
    (check_empty_string f).bind fun f =>
      if f.length < 1 then Except.error "front: String should have at least 1 character"
      else Except.ok { id := c.id, front := f, back := c.back.getD "", tags := c.tags.getD [] }

/-- Construct every card of the input list, propagating the first failure. -/
def buildCards : List CardInput → Except String (List Card)
  | [] => Except.ok []
  | c :: cs => (buildCard c).bind fun card => (buildCards cs).map fun rest => card :: rest

/-- Validator `FlashcardData.check_cards_not_empty`. -/
def check_cards_not_empty (l : List Card) : Except String (List Card) :=
  if l.isEmpty then Except.error "闪卡列表不能为空" else Except.ok l

/-- pydantic coercion of a `created_at` value to a datetime. -/
def parseDatetime : DatetimeInput → Except String Nat
  | DatetimeInput.dtObj t => Except.ok t
  | DatetimeInput.isoGood t => Except.ok t
  | DatetimeInput.isoBad s => Except.error ("created_at: invalid datetime " ++ s)

/-- Construct a `Metadata` from one input mapping. -/
def buildMetadata (m : MetadataInput) : Except String Metadata :=
  match m.created_at with
  | none =>
    Except.ok
      { title := m.title.getD "FlashCard", description := m.description.getD "",
        version := m.version.getD "1.0.0", created_at := none }
  | some d =>
    (parseDatetime d).map fun t =>
      { title := m.title.getD "FlashCard", description := m.description.getD "",
        version := m.version.getD "1.0.0", created_at := some t }

/-- The `Metadata` default factory value. -/
def defaultMetadata : Metadata :=
  { title := "FlashCard", description := "", version := "1.0.0", created_at := none }

/-- Construct a `Style` from one input mapping, running the field
validators in field declaration order; defaults are taken unvalidated. -/
def buildStyle (s : StyleInput) : Except String Style :=
  (valField validate_theme s.theme "light").bind fun theme =>
  (valField validate_font s.font defaultFont).bind fun font =>
  (valField validate_font s.card_front_font defaultCardFrontFont).bind fun cff =>
  (valField validate_font s.card_back_font defaultCardBackFont).bind fun cbf =>
  (valField validate_dimensions s.card_width "74.25mm").bind fun cw =>
  (valField validate_dimensions s.card_height "105mm").bind fun ch =>
  (valField validate_background s.card_front_background "#ffffff").bind fun cfb =>
  (valField validate_background s.card_back_background "#f5f5f5").bind fun cbb =>
  (valField validate_text_align s.card_front_text_align "center").bind fun cfta =>
  (valField validate_text_align s.card_back_text_align "center").bind fun cbta =>
  (valField validate_border s.card_border "1px solid #dddddd").bind fun cb =>
  (valField validate_css_length s.card_border_radius "8px").bind fun cbr =>
  (valField validate_css_length s.card_padding "20px").bind fun cp =>
  Except.ok
    { template := s.template.getD "minimal", theme := theme, colors := s.colors.getD [],
      font := font, card_front_font := cff, card_back_font := cbf,
      card_width := cw, card_height := ch,
      card_front_background := cfb, card_back_background := cbb,
      card_front_text_align := cfta, card_back_text_align := cbta,
      card_border := cb, card_border_radius := cbr, card_padding := cp,
      card_box_shadow := s.card_box_shadow.getD "0 2px 4px rgba(0,0,0,0.1)",
      show_deck_name := s.show_deck_name.getD false,
      show_card_index := s.show_card_index.getD false,
      deck_name_style := s.deck_name_style.getD "",
      card_index_style := s.card_index_style.getD "",
      compact_typography := s.compact_typography.getD true,
      front_char_limit := (s.front_char_limit.getD (some 180)),
      back_char_limit := (s.back_char_limit.getD (some 380)) }

/-- The `Style` default factory value: every field default, unvalidated. -/
def defaultStyle : Style :=
  { template := "minimal", theme := "light", colors := [],
    font := defaultFont, card_front_font := defaultCardFrontFont,
    card_back_font := defaultCardBackFont,
    card_width := "74.25mm", card_height := "105mm",
    card_front_background := "#ffffff", card_back_background := "#f5f5f5",
    card_front_text_align := "center", card_back_text_align := "center",
    card_border := "1px solid #dddddd", card_border_radius := "8px",
    card_padding := "20px", card_box_shadow := "0 2px 4px rgba(0,0,0,0.1)",
    show_deck_name := false, show_card_index := false,
    deck_name_style := "", card_index_style := "",
    compact_typography := true, front_char_limit := some 180,
    back_char_limit := some 380 }

/-- Validation of the required `cards` field: the field must be present,
every item must construct, and the list must be non-empty. -/
def buildCardsField : Option (List CardInput) → Except String (List Card)
  | none => Except.error "cards: Field required"
  | some cs => (buildCards cs).bind check_cards_not_empty

/-- Validation of the `Optional[Metadata]` field: absent takes the default
factory, an explicit null stays `None`. -/
def buildMetadataField : Option (Option MetadataInput) → Except String (Option Metadata)
  | none => Except.ok (some defaultMetadata)
  | some none => Except.ok none
  | some (some m) => (buildMetadata m).map some

/-- Validation of the `Optional[Style]` field: absent takes the default
factory, an explicit null stays `None`. -/
def buildStyleField : Option (Option StyleInput) → Except String (Option Style)
  | none => Except.ok (some defaultStyle)
  | some none => Except.ok none
  | some (some s) => (buildStyle s).map some

/-- Construct a `FlashcardData` from an input document: this is the body of
`FlashcardData(**json_data)`. -/
def buildFlashcardData (d : InputDoc) : Except String FlashcardData :=
  (buildCardsField d.cards).bind fun cards =>
  (buildMetadataField d.metadata).bind fun metadata =>
  (buildStyleField d.style).bind fun style =>
  Except.ok { cards := cards, metadata := metadata, style := style }

/-! ## json_validator.py: entry points -/

/-- The result record of `validate_json_structure`. -/
structure ValidationResult where
  is_valid : Bool
  error : Option String
deriving DecidableEq, Repr

/-- Entry point `validate_json_structure`: construct the model, never raise, report the
outcome as a result record. -/
def validate_json_structure (d : InputDoc) : ValidationResult :=
  match buildFlashcardData d with
  | Except.ok _ => { is_valid := true, error := none }
  | Except.error e => { is_valid := false, error := some e }

/-- The id backfill of one card at enumerate index `i`: assign
`card-{i + 1}` when the id is absent, keep it verbatim otherwise. -/
def fillOne (i : Nat) (c : Card) : Card :=
  match c.id with
  | none => { c with id := some ("card-" ++ pyStr (i + 1)) }
  | some _ => c

/-- The id backfill loop of `normalize_json_data`, with the running
enumerate index. -/
def fillCardIdsFrom (i : Nat) : List Card → List Card
  | [] => []
  | c :: cs => fillOne i c :: fillCardIdsFrom (i + 1) cs

/-- The id backfill loop of `normalize_json_data`. -/
def fillCardIds (cards : List Card) : List Card := fillCardIdsFrom 0 cards

/-- Dump (`model_dump`) of a card. -/
def dumpCard (c : Card) : CardInput :=
  { id := c.id, front := some c.front, back := some c.back, tags := some c.tags }

/-- Dump (`model_dump`) of a metadata record, with the `created_at` datetime
serialized to its ISO-8601 string. -/
def dumpMetadata (m : Metadata) : MetadataInput :=
  { title := some m.title, description := some m.description,
    version := some m.version, created_at := m.created_at.map DatetimeInput.isoGood }

/-- Dump (`model_dump`) of a style record: every key present. -/
def dumpStyle (st : Style) : StyleInput :=
  { template := some st.template, theme := some st.theme, colors := some st.colors,
    font := some st.font, card_front_font := some st.card_front_font,
    card_back_font := some st.card_back_font,
    card_width := some st.card_width, card_height := some st.card_height,
    card_front_background := some st.card_front_background,
    card_back_background := some st.card_back_background,
    card_front_text_align := some st.card_front_text_align,
    card_back_text_align := some st.card_back_text_align,
    card_border := some st.card_border, card_border_radius := some st.card_border_radius,
    card_padding := some st.card_padding, card_box_shadow := some st.card_box_shadow,
    show_deck_name := some st.show_deck_name, show_card_index := some st.show_card_index,
    deck_name_style := some st.deck_name_style, card_index_style := some st.card_index_style,
    compact_typography := some st.compact_typography,
    front_char_limit := some st.front_char_limit,
    back_char_limit := some st.back_char_limit }

/-- Dump (`model_dump(exclude_unset=False)`) of the whole document. -/
def dumpDoc (fd : FlashcardData) : InputDoc :=
  { cards := some (fd.cards.map dumpCard),
    metadata := some (fd.metadata.map dumpMetadata),
    style := some (fd.style.map dumpStyle) }

/-- Entry point `normalize_json_data`: validate, backfill card ids, dump. -/
def normalize_json_data (d : InputDoc) : Except String InputDoc :=
  (buildFlashcardData d).map fun fd => dumpDoc { fd with cards := fillCardIds fd.cards }

/-! ## csv_reader.py

`convert_csv_to_json_data` is embedded from the parsed row level on: the
`csv.reader` output is a list of rows, each a list of cell strings.  File
I/O failures (`FileNotFoundError`, decode errors) are outside the
embedding. -/

/-- The per-cell selection of the column-joining loop: the stripped cell
value, provided the column exists and the stripped value is non-empty. -/
def selectCell (row : List String) (i : Nat) : Option String :=
  match row.get? i with
  | some cell => if pyStrip cell = "" then none else some (pyStrip cell)
  | none => none

/-- The column-joining loop of `convert_csv_to_json_data`: the stripped,
non-empty cells at the given column indices, joined with the separator. -/
def joinColumns (row : List String) (cols : List Nat) (sep : String) : String :=
  pyJoin sep (cols.filterMap (selectCell row))

/-- The largest column index a row must cover: `max(all_columns)` over the
front, back and tags column indices. -/
def rowMaxIndex (frontCols backCols : List Nat) (tagsCol : Option Nat) : Nat :=
  (frontCols ++ backCols ++ (match tagsCol with
    | some t => [t]
    | none => [])).foldl max 0

/-- The tags value of one row: split the tags cell on commas, strip each
piece, drop empty pieces; the key is only added when tags remain. -/
def rowTags (row : List String) (tagsCol : Option Nat) : Option (List String) :=
  match tagsCol with
  | some t =>
    match row.get? t with
    | some cell =>
      if pyStrip cell = "" then none
      else
        if (((pySplitComma (pyStrip cell)).map pyStrip).filter fun tg => !(tg = "")) = []
        then none
        else some (((pySplitComma (pyStrip cell)).map pyStrip).filter fun tg => !(tg = ""))
    | none => none
  | none => none

/-- The per-row body of `convert_csv_to_json_data`: `none` means the row is
skipped (empty row, too few columns, or empty joined front). -/
def rowToCard (frontCols backCols : List Nat) (tagsCol : Option Nat) (sep : String)
    (row : List String) : Option CardInput :=
  if row = [] then none
  else if row.length ≤ rowMaxIndex frontCols backCols tagsCol then none
  else if joinColumns row frontCols sep = "" then none
  else
    some
      { front := some (joinColumns row frontCols sep),
        back := some (joinColumns row backCols sep),
        tags := rowTags row tagsCol }

/-- The row loop of `convert_csv_to_json_data`. -/
def processCsvRows (rows : List (List String)) (frontCols backCols : List Nat)
    (tagsCol : Option Nat) (sep : String) : List CardInput :=
  rows.filterMap (rowToCard frontCols backCols tagsCol sep)

/-- The error message raised when a CSV yields no cards. -/
def csvEmptyError : String := "CSV文件中没有找到有效的数据行来创建卡片。"

/-- The auto-generated description of a CSV-derived deck. -/
def csvDescription (base : String) (n : Nat) : String :=
  "从 " ++ base ++ " 生成的包含 " ++ pyStr n ++ " 张卡片的闪卡集。"

/-- The candidate cards a CSV yields: skip the header row when configured,
then run the row loop. -/
def csvCandidateCards (rows : List (List String)) (frontCols backCols : List Nat)
    (tagsCol : Option Nat) (hasHeader : Bool) (sep : String) : List CardInput :=
  processCsvRows (if hasHeader then rows.drop 1 else rows) frontCols backCols tagsCol sep

/-- The metadata mapping `convert_csv_to_json_data` builds (only `title` and
`description` keys). -/
def csvMetadata (filePath title : String) (n : Nat) : MetadataInput :=
  { title := some title, description := some (csvDescription (pyBasename filePath) n) }

/-- Converter `convert_csv_to_json_data`, from the parsed rows of the file at
`filePath`: defaults the title and the column selections, optionally skips
the header row, builds the candidate cards, raises when none were produced,
and normalizes the resulting candidate document. -/
def convert_csv_to_json_data (rows : List (List String)) (filePath : String)
    (title : Option String) (frontCols backCols : Option (List Nat))
    (tagsCol : Option Nat) (hasHeader : Bool) (sep : String) :
    Except String InputDoc :=
  if csvCandidateCards rows (frontCols.getD [0]) (backCols.getD [1]) tagsCol hasHeader sep
      = [] then
    Except.error csvEmptyError
  else
    normalize_json_data
      { cards := some (csvCandidateCards rows (frontCols.getD [0]) (backCols.getD [1])
          tagsCol hasHeader sep),
        metadata := some (some (csvMetadata filePath
          (title.getD (pySplitextStem (pyBasename filePath)))
          (csvCandidateCards rows (frontCols.getD [0]) (backCols.getD [1])
            tagsCol hasHeader sep).length)),
        style := none }

/-! ## card_generator.py: template resolution

`render_flashcard_template` resolves the template content through the chain
template name → configured file path → file content on disk, and otherwise
substitutes the built-in inline template of `get_inline_template`.  The
file system is a parameter mapping a template file path to its content
(`none` = the file does not exist or cannot be read). -/

/-- Which template content `render_flashcard_template` renders with. -/
inductive TemplateChoice where
  | fromFile (content : String)
  | inlineFallback
deriving DecidableEq, Repr

/-- The possible outcomes of template resolution inside HTML generation:
either some template content is rendered, or a template-not-found error is
raised. -/
inductive RenderOutcome where
  | rendered (choice : TemplateChoice)
  | templateNotFoundError
deriving DecidableEq, Repr

/-- The configured file path of a template name, per
`FLASHCARD_CONFIG['available_templates']`. -/
def templateFilePath (template : String) : Option String :=
  (availableTemplates.find? fun p => p.1 = template).map Prod.snd

/-- The template file content the resolution chain produces, if any:
configured name, then existing readable file. -/
def templateFileContent (disk : String → Option String) (template : String) :
    Option String :=
  match templateFilePath template with
  | some file => disk file
  | none => none

/-- The template-content selection of `render_flashcard_template`: a loaded
non-empty file content, and in every other case (unknown template name,
missing file, empty content — Python falsiness) the inline fallback. -/
def chooseTemplateContent (disk : String → Option String) (template : String) :
    TemplateChoice :=
  match templateFileContent disk template with
  | some content =>
    if content = "" then TemplateChoice.inlineFallback
    else TemplateChoice.fromFile content
  | none => TemplateChoice.inlineFallback

/-- The outcome of template resolution inside `render_flashcard_template`:
the source always renders the chosen content and has no error path. -/
def renderTemplateOutcome (disk : String → Option String) (template : String) :
    RenderOutcome :=
  RenderOutcome.rendered (chooseTemplateContent disk template)

/-! ## pdf_generator.py: color merging (also in card_generator.py) -/

/-- The color normalization applied to each user color value: prepend `#`
unless the value already starts with `#`. -/
def normalizeColorValue (v : String) : String :=
  if pyStartsWith v '#' then v else "#" ++ v

/-- Python dict assignment `m[k] = v`: overwrite in place, or append. -/
def assocSet (m : List (String × String)) (k v : String) : List (String × String) :=
  if (m.find? fun p => p.1 = k).isSome then
    m.map fun p => if p.1 = k then (k, v) else p
  else m ++ [(k, v)]

/-- Python dict lookup. -/
def assocGet (m : List (String × String)) (k : String) : Option String :=
  (m.find? fun p => p.1 = k).map Prod.snd

/-- The user-color merge loop of `generate_pdf_from_json`
(pdf_generator.py): each user color value is normalized independently and
written over the theme defaults. -/
def mergeUserColors (defaults userColors : List (String × String)) :
    List (String × String) :=
  userColors.foldl (fun acc p => assocSet acc p.1 (normalizeColorValue p.2)) defaults

/-! ## Lemmas: Python string primitives -/

theorem dropWhile_pyStripL (l : List Char) :
    List.dropWhile pyIsSpace (pyStripL l) = pyStripL l := by
  unfold pyStripL
  have hmm : List.dropWhile pyIsSpace (List.dropWhile pyIsSpace l) =
      List.dropWhile pyIsSpace l := List.dropWhile_idempotent _ _
  have hpre : List.rdropWhile pyIsSpace (List.dropWhile pyIsSpace l) <+:
      List.dropWhile pyIsSpace l := List.rdropWhile_prefix _ _
  cases hr : List.rdropWhile pyIsSpace (List.dropWhile pyIsSpace l) with
  | nil => simp
  | cons a r =>
    rw [hr] at hpre
    obtain ⟨t, ht⟩ := hpre
    have hpa : pyIsSpace a = false := by
      have h0 := (List.dropWhile_eq_self_iff).mp hmm
      rw [← ht] at h0
      have := h0 (by simp)
      simpa using this
    simp [List.dropWhile_cons, hpa]

theorem pyStripL_idem (l : List Char) : pyStripL (pyStripL l) = pyStripL l := by
  have h1 : pyStripL (pyStripL l) =
      List.rdropWhile pyIsSpace (List.dropWhile pyIsSpace (pyStripL l)) := rfl
  rw [h1, dropWhile_pyStripL]
  unfold pyStripL
  exact List.rdropWhile_idempotent _ _

theorem pyStrip_idem (s : String) : pyStrip (pyStrip s) = pyStrip s := by
  unfold pyStrip
  rw [show (String.mk (pyStripL s.data)).data = pyStripL s.data from rfl, pyStripL_idem]

theorem pyStripL_eq_nil_iff (l : List Char) :
    pyStripL l = [] ↔ ∀ c ∈ l, pyIsSpace c = true := by
  constructor
  · intro h c hc
    have h2 : ∀ c ∈ List.dropWhile pyIsSpace l, pyIsSpace c = true := by
      intro x hx
      exact (List.rdropWhile_eq_nil_iff).mp h x hx
    have hsplit : List.takeWhile pyIsSpace l ++ List.dropWhile pyIsSpace l = l :=
      List.takeWhile_append_dropWhile _ _
    rw [← hsplit] at hc
    rcases List.mem_append.mp hc with htk | hdr
    · exact List.mem_takeWhile_imp htk
    · exact h2 c hdr
  · intro h
    have hd : List.dropWhile pyIsSpace l = [] := (List.dropWhile_eq_nil_iff).mpr h
    unfold pyStripL
    rw [hd]
    simp [List.rdropWhile]

theorem string_mk_data (l : List Char) : (String.mk l).data = l := rfl

theorem string_eq_of_data (a b : String) (h : a.data = b.data) : a = b := by
  cases a
  cases b
  exact congrArg String.mk h

theorem pyStrip_ne_empty_of_mem (s : String) (c : Char) (hc : c ∈ s.data)
    (hns : pyIsSpace c = false) : pyStrip s ≠ "" := by
  intro h
  have hdata : pyStripL s.data = [] := by
    have := congrArg String.data h
    simpa [pyStrip] using this
  have := (pyStripL_eq_nil_iff s.data).mp hdata c hc
  rw [hns] at this
  exact Bool.false_ne_true this

theorem exists_nonspace_of_stripped (p : String) (hst : pyStrip p = p) (hne : p ≠ "") :
    ∃ c ∈ p.data, pyIsSpace c = false := by
  by_contra hall
  push_neg at hall
  have hsp : ∀ c ∈ p.data, pyIsSpace c = true := by
    intro c hc
    have hcc := hall c hc
    revert hcc
    cases pyIsSpace c <;> simp
  have hnil : pyStripL p.data = [] := (pyStripL_eq_nil_iff p.data).mpr hsp
  apply hne
  rw [← hst]
  apply string_eq_of_data
  simp [pyStrip, hnil]

theorem ne_empty_of_pyStrip_ne_empty (s : String) (h : pyStrip s ≠ "") : s ≠ "" := by
  intro he
  subst he
  exact h rfl

theorem length_pos_of_ne_empty (s : String) (h : s ≠ "") : ¬s.length < 1 := by
  cases s with
  | mk data =>
    cases data with
    | nil => exact absurd rfl h
    | cons c cs => simp [String.length]

/-! ## Lemmas: `pyStr` -/

theorem natDecAux_eq_digits (n : Nat) : ∀ fuel, n ≤ fuel →
    natDecAux fuel n = (Nat.digits 10 n).map Nat.digitChar := by
  induction n using Nat.strong_induction_on with
  | _ n ih =>
    intro fuel hle
    match fuel with
    | 0 =>
      have h0 : n = 0 := Nat.le_zero.mp hle
      subst h0
      simp [natDecAux]
    | fuel + 1 =>
      by_cases h0 : n = 0
      · subst h0
        simp [natDecAux]
      · rw [natDecAux, if_neg h0,
          Nat.digits_def' (by norm_num : (1 : Nat) < 10) (Nat.pos_of_ne_zero h0),
          List.map_cons]
        congr 1
        have hdiv : n / 10 < n := Nat.div_lt_self (Nat.pos_of_ne_zero h0) (by norm_num)
        exact ih (n / 10) hdiv fuel (by omega)

theorem pyStr_eq_digits (n : Nat) (h : n ≠ 0) :
    pyStr n = String.mk (((Nat.digits 10 n).map Nat.digitChar).reverse) := by
  rw [pyStr, if_neg h, natDecAux_eq_digits n n (le_refl n)]

theorem digitChar_inj_on : ∀ a < 10, ∀ b < 10, Nat.digitChar a = Nat.digitChar b → a = b := by
  decide

theorem mapDigitChar_inj : ∀ (xs ys : List Nat), (∀ x ∈ xs, x < 10) → (∀ y ∈ ys, y < 10) →
    xs.map Nat.digitChar = ys.map Nat.digitChar → xs = ys := by
  intro xs
  induction xs with
  | nil =>
    intro ys _ _ h
    cases ys with
    | nil => rfl
    | cons y ys => simp at h
  | cons x xs ihx =>
    intro ys hx hy h
    cases ys with
    | nil => simp at h
    | cons y ys =>
      simp only [List.map_cons, List.cons.injEq] at h
      have hxy : x = y :=
        digitChar_inj_on x (hx x (by simp)) y (hy y (by simp)) h.1
      have htail : xs = ys := by
        apply ihx ys (fun a ha => hx a (by simp [ha])) (fun a ha => hy a (by simp [ha])) h.2
      rw [hxy, htail]

theorem pyStr_ne_zero_str (n : Nat) (h : n ≠ 0) : pyStr n ≠ "0" := by
  rw [pyStr_eq_digits n h]
  intro hc
  have hdata : ((Nat.digits 10 n).map Nat.digitChar).reverse = ['0'] := by
    have := congrArg String.data hc
    simpa using this
  have hmap : (Nat.digits 10 n).map Nat.digitChar = ['0'] := by
    have := congrArg List.reverse hdata
    simpa using this
  have hlen : (Nat.digits 10 n).length = 1 := by
    have := congrArg List.length hmap
    simpa using this
  obtain ⟨d, hd⟩ : ∃ d, Nat.digits 10 n = [d] := by
    cases hdig : Nat.digits 10 n with
    | nil => rw [hdig] at hlen; simp at hlen
    | cons a t =>
      rw [hdig] at hlen
      simp at hlen
      exact ⟨a, by rw [hlen]⟩
  rw [hd] at hmap
  simp at hmap
  have hd10 : d < 10 := Nat.digits_lt_base (by norm_num) (by rw [hd]; simp)
  have hd0 : d = 0 := by
    have := digitChar_inj_on d hd10 0 (by norm_num) (by simpa using hmap)
    simpa using this
  have hlast := Nat.getLast_digit_ne_zero 10 h
  exact hlast (by simp [hd, hd0])

theorem pyStr_injective : Function.Injective pyStr := by
  intro m n h
  by_cases hm : m = 0 <;> by_cases hn : n = 0
  · rw [hm, hn]
  · exfalso
    apply pyStr_ne_zero_str n hn
    rw [← h, hm]
    rfl
  · exfalso
    apply pyStr_ne_zero_str m hm
    rw [h, hn]
    rfl
  · rw [pyStr_eq_digits m hm, pyStr_eq_digits n hn] at h
    have hdata := congrArg String.data h
    simp only [string_mk_data] at hdata
    have hrev := congrArg List.reverse hdata
    simp only [List.reverse_reverse] at hrev
    have hdig : Nat.digits 10 m = Nat.digits 10 n :=
      mapDigitChar_inj _ _ (fun x hx => Nat.digits_lt_base (by norm_num) hx)
        (fun y hy => Nat.digits_lt_base (by norm_num) hy) hrev
    have := congrArg (Nat.ofDigits 10) hdig
    rwa [Nat.ofDigits_digits, Nat.ofDigits_digits] at this

theorem string_append_cancel (c a b : String) (h : c ++ a = c ++ b) : a = b := by
  have hd := congrArg String.data h
  simp only [String.data_append] at hd
  exact string_eq_of_data a b (List.append_cancel_left hd)

theorem cardId_injective :
    Function.Injective (fun k : Nat => some ("card-" ++ pyStr k)) := by
  intro a b h
  simp only [Option.some.injEq] at h
  exact pyStr_injective (string_append_cancel "card-" _ _ h)

/-! ## Lemmas: card construction -/

theorem buildCard_ok (ci : CardInput) (c : Card) (h : buildCard ci = Except.ok c) :
    ci.front = some c.front ∧ c.id = ci.id ∧ c.back = ci.back.getD "" ∧
      c.tags = ci.tags.getD [] ∧ pyStrip c.front ≠ "" := by
  unfold buildCard at h
  cases hf : ci.front with
  | none => rw [hf] at h; exact absurd h (by simp)
  | some f =>
    rw [hf] at h
    simp only [check_empty_string] at h
    by_cases hs : pyStrip f = ""
    · simp only [if_pos hs, Except.bind] at h
      exact absurd h (by simp)
    · simp only [if_neg hs, Except.bind] at h
      by_cases hl : f.length < 1
      · simp only [if_pos hl] at h
        exact absurd h (by simp)
      · simp only [if_neg hl, Except.ok.injEq] at h
        subst h
        exact ⟨rfl, rfl, rfl, rfl, hs⟩

theorem buildCard_rebuild (c : Card) (h : pyStrip c.front ≠ "") :
    buildCard (dumpCard c) = Except.ok c := by
  unfold buildCard dumpCard check_empty_string
  simp only
  rw [if_neg h]
  simp only [Except.bind]
  rw [if_neg (length_pos_of_ne_empty c.front (ne_empty_of_pyStrip_ne_empty c.front h))]
  rfl

theorem buildCards_ok_length (l : List CardInput) (cs : List Card)
    (h : buildCards l = Except.ok cs) : cs.length = l.length := by
  induction l generalizing cs with
  | nil =>
    unfold buildCards at h
    simp only [Except.ok.injEq] at h
    subst h
    rfl
  | cons ci rest ih =>
    unfold buildCards at h
    cases hc : buildCard ci with
    | error e => rw [hc] at h; exact absurd h (by simp [Except.bind])
    | ok card =>
      rw [hc] at h
      simp only [Except.bind] at h
      cases hr : buildCards rest with
      | error e => rw [hr] at h; exact absurd h (by simp [Except.map])
      | ok csr =>
        rw [hr] at h
        simp only [Except.map, Except.ok.injEq] at h
        subst h
        simp [ih csr hr]

theorem buildCards_ok_get (l : List CardInput) (cs : List Card)
    (h : buildCards l = Except.ok cs) :
    ∀ i (hi : i < cs.length) (hj : i < l.length),
      buildCard (l.get ⟨i, hj⟩) = Except.ok (cs.get ⟨i, hi⟩) := by
  induction l generalizing cs with
  | nil =>
    unfold buildCards at h
    simp only [Except.ok.injEq] at h
    subst h
    intro i hi
    simp at hi
  | cons ci rest ih =>
    unfold buildCards at h
    cases hc : buildCard ci with
    | error e => rw [hc] at h; exact absurd h (by simp [Except.bind])
    | ok card =>
      rw [hc] at h
      simp only [Except.bind] at h
      cases hr : buildCards rest with
      | error e => rw [hr] at h; exact absurd h (by simp [Except.map])
      | ok csr =>
        rw [hr] at h
        simp only [Except.map, Except.ok.injEq] at h
        subst h
        intro i hi hj
        match i with
        | 0 => simpa using hc
        | i + 1 =>
          simp only [List.get_cons_succ]
          exact ih csr hr i (by simpa using hi) (by simpa using hj)

theorem buildCards_fronts (l : List CardInput) (cs : List Card)
    (h : buildCards l = Except.ok cs) : ∀ c ∈ cs, pyStrip c.front ≠ "" := by
  induction l generalizing cs with
  | nil =>
    unfold buildCards at h
    simp only [Except.ok.injEq] at h
    subst h
    intro c hc
    simp at hc
  | cons ci rest ih =>
    unfold buildCards at h
    cases hc : buildCard ci with
    | error e => rw [hc] at h; exact absurd h (by simp [Except.bind])
    | ok card =>
      rw [hc] at h
      simp only [Except.bind] at h
      cases hr : buildCards rest with
      | error e => rw [hr] at h; exact absurd h (by simp [Except.map])
      | ok csr =>
        rw [hr] at h
        simp only [Except.map, Except.ok.injEq] at h
        subst h
        intro c hcmem
        rcases List.mem_cons.mp hcmem with hhd | htl
        · subst hhd
          exact (buildCard_ok ci c hc).2.2.2.2
        · exact ih csr hr c htl

theorem buildCards_rebuild (cs : List Card) (h : ∀ c ∈ cs, pyStrip c.front ≠ "") :
    buildCards (cs.map dumpCard) = Except.ok cs := by
  induction cs with
  | nil => rfl
  | cons c rest ih =>
    simp only [List.map_cons]
    unfold buildCards
    rw [buildCard_rebuild c (h c (by simp))]
    simp only [Except.bind]
    rw [ih (fun x hx => h x (by simp [hx]))]
    rfl

/-! ## Lemmas: id backfill -/

theorem fillOne_front (i : Nat) (c : Card) : (fillOne i c).front = c.front := by
  unfold fillOne
  cases hid : c.id <;> simp [hid]

theorem fillOne_back (i : Nat) (c : Card) : (fillOne i c).back = c.back := by
  unfold fillOne
  cases hid : c.id <;> simp [hid]

theorem fillOne_tags (i : Nat) (c : Card) : (fillOne i c).tags = c.tags := by
  unfold fillOne
  cases hid : c.id <;> simp [hid]

theorem fillOne_id (i : Nat) (c : Card) :
    (fillOne i c).id = some (c.id.getD ("card-" ++ pyStr (i + 1))) := by
  unfold fillOne
  cases hid : c.id <;> simp [hid]

theorem fillCardIdsFrom_length (i : Nat) (cs : List Card) :
    (fillCardIdsFrom i cs).length = cs.length := by
  induction cs generalizing i with
  | nil => rfl
  | cons c rest ih => simp [fillCardIdsFrom, ih]

theorem fillCardIdsFrom_get (cs : List Card) : ∀ (j i : Nat)
    (hi : i < (fillCardIdsFrom j cs).length) (hj : i < cs.length),
    (fillCardIdsFrom j cs).get ⟨i, hi⟩ = fillOne (j + i) (cs.get ⟨i, hj⟩) := by
  induction cs with
  | nil =>
    intro j i hi
    simp [fillCardIdsFrom] at hi
  | cons c rest ih =>
    intro j i hi hj
    match i with
    | 0 => simp [fillCardIdsFrom]
    | i + 1 =>
      simp only [fillCardIdsFrom, List.get_cons_succ]
      rw [ih (j + 1) i (by simpa [fillCardIdsFrom] using hi) (by simpa using hj)]
      congr 1
      omega

theorem fillCardIdsFrom_of_all_some (cs : List Card)
    (h : ∀ c ∈ cs, c.id.isSome = true) : ∀ i, fillCardIdsFrom i cs = cs := by
  induction cs with
  | nil => intro i; rfl
  | cons c rest ih =>
    intro i
    have hc : c.id.isSome = true := h c (by simp)
    have hone : fillOne i c = c := by
      unfold fillOne
      cases hid : c.id with
      | none => rw [hid] at hc; simp at hc
      | some x => rfl
    simp [fillCardIdsFrom, hone, ih (fun x hx => h x (by simp [hx]))]

theorem fillCardIdsFrom_id_isSome (cs : List Card) :
    ∀ i, ∀ c ∈ fillCardIdsFrom i cs, c.id.isSome = true := by
  induction cs with
  | nil => intro i c hc; simp [fillCardIdsFrom] at hc
  | cons c rest ih =>
    intro i x hx
    simp only [fillCardIdsFrom, List.mem_cons] at hx
    rcases hx with hhd | htl
    · subst hhd
      rw [fillOne_id]
      rfl
    · exact ih (i + 1) x htl

theorem fillCardIdsFrom_fronts (cs : List Card) (P : String → Prop)
    (h : ∀ c ∈ cs, P c.front) : ∀ i, ∀ c ∈ fillCardIdsFrom i cs, P c.front := by
  induction cs with
  | nil => intro i c hc; simp [fillCardIdsFrom] at hc
  | cons c rest ih =>
    intro i x hx
    simp only [fillCardIdsFrom, List.mem_cons] at hx
    rcases hx with hhd | htl
    · subst hhd
      rw [fillOne_front]
      exact h c (by simp)
    · exact ih (fun y hy => h y (by simp [hy])) (i + 1) x htl

/-! ## Lemmas: style validators -/

theorem validate_theme_ok (v w : String) (h : validate_theme v = Except.ok w) :
    w = v ∧ availableThemes.contains v = true := by
  unfold validate_theme at h
  by_cases hm : availableThemes.contains v = true
  · rw [if_pos hm] at h
    simp only [Except.ok.injEq] at h
    exact ⟨h.symm, hm⟩
  · rw [if_neg hm] at h
    exact absurd h (by simp)

theorem validate_theme_of_mem (v : String) (h : availableThemes.contains v = true) :
    validate_theme v = Except.ok v := by
  unfold validate_theme
  rw [if_pos h]

theorem validate_font_ok (v w : String) (h : validate_font v = Except.ok w) :
    w = pyStrip v ∧ v ≠ "" := by
  unfold validate_font at h
  by_cases he : v = ""
  · rw [if_pos he] at h
    exact absurd h (by simp)
  · rw [if_neg he] at h
    simp only [Except.ok.injEq] at h
    exact ⟨h.symm, he⟩

theorem validate_font_of_ne (v : String) (h : v ≠ "") :
    validate_font v = Except.ok (pyStrip v) := by
  unfold validate_font
  rw [if_neg h]

theorem validate_background_ok (v w : String) (h : validate_background v = Except.ok w) :
    w = pyStrip v ∧ v ≠ "" := by
  unfold validate_background at h
  by_cases he : v = ""
  · rw [if_pos he] at h
    exact absurd h (by simp)
  · rw [if_neg he] at h
    simp only [Except.ok.injEq] at h
    exact ⟨h.symm, he⟩

theorem validate_background_of_ne (v : String) (h : v ≠ "") :
    validate_background v = Except.ok (pyStrip v) := by
  unfold validate_background
  rw [if_neg h]

theorem validate_border_ok (v w : String) (h : validate_border v = Except.ok w) :
    w = pyStrip v ∧ v ≠ "" := by
  unfold validate_border at h
  by_cases he : v = ""
  · rw [if_pos he] at h
    exact absurd h (by simp)
  · rw [if_neg he] at h
    simp only [Except.ok.injEq] at h
    exact ⟨h.symm, he⟩

theorem validate_border_of_ne (v : String) (h : v ≠ "") :
    validate_border v = Except.ok (pyStrip v) := by
  unfold validate_border
  rw [if_neg h]

theorem validate_dimensions_ok (v w : String) (h : validate_dimensions v = Except.ok w) :
    w = pyStrip v ∧ matchDimension (pyStrip v) = true := by
  unfold validate_dimensions at h
  by_cases hm : matchDimension (pyStrip v) = true
  · rw [if_pos hm] at h
    simp only [Except.ok.injEq] at h
    exact ⟨h.symm, hm⟩
  · rw [if_neg hm] at h
    exact absurd h (by simp)

theorem validate_dimensions_of (v : String) (h : matchDimension (pyStrip v) = true) :
    validate_dimensions v = Except.ok (pyStrip v) := by
  unfold validate_dimensions
  rw [if_pos h]

theorem validate_css_length_ok (v w : String) (h : validate_css_length v = Except.ok w) :
    w = pyStrip v ∧ matchCssLength (pyStrip v) = true := by
  unfold validate_css_length at h
  by_cases hm : matchCssLength (pyStrip v) = true
  · rw [if_pos hm] at h
    simp only [Except.ok.injEq] at h
    exact ⟨h.symm, hm⟩
  · rw [if_neg hm] at h
    exact absurd h (by simp)

theorem validate_css_length_of (v : String) (h : matchCssLength (pyStrip v) = true) :
    validate_css_length v = Except.ok (pyStrip v) := by
  unfold validate_css_length
  rw [if_pos h]

theorem validate_text_align_ok (v w : String) (h : validate_text_align v = Except.ok w) :
    w = v ∧ validAligns.contains v = true := by
  unfold validate_text_align at h
  by_cases hm : validAligns.contains v = true
  · rw [if_pos hm] at h
    simp only [Except.ok.injEq] at h
    exact ⟨h.symm, hm⟩
  · rw [if_neg hm] at h
    exact absurd h (by simp)

theorem validate_text_align_of_mem (v : String) (h : validAligns.contains v = true) :
    validate_text_align v = Except.ok v := by
  unfold validate_text_align
  rw [if_pos h]

/-! ## Lemmas: style re-validation -/

/-- The invariants a validated (or default) style satisfies that make a
second validation pass succeed and reproduce it, except that
`card_front_font` gets stripped. -/
structure StyleReOK (st : Style) : Prop where
  theme_mem : availableThemes.contains st.theme = true
  font_ne : st.font ≠ ""
  font_stripped : pyStrip st.font = st.font
  cff_ne : st.card_front_font ≠ ""
  cbf_ne : st.card_back_font ≠ ""
  cbf_stripped : pyStrip st.card_back_font = st.card_back_font
  cw_match : matchDimension st.card_width = true
  cw_stripped : pyStrip st.card_width = st.card_width
  ch_match : matchDimension st.card_height = true
  ch_stripped : pyStrip st.card_height = st.card_height
  cfb_ne : st.card_front_background ≠ ""
  cfb_stripped : pyStrip st.card_front_background = st.card_front_background
  cbb_ne : st.card_back_background ≠ ""
  cbb_stripped : pyStrip st.card_back_background = st.card_back_background
  cfta_mem : validAligns.contains st.card_front_text_align = true
  cbta_mem : validAligns.contains st.card_back_text_align = true
  cb_ne : st.card_border ≠ ""
  cb_stripped : pyStrip st.card_border = st.card_border
  cbr_match : matchCssLength st.card_border_radius = true
  cbr_stripped : pyStrip st.card_border_radius = st.card_border_radius
  cp_match : matchCssLength st.card_padding = true
  cp_stripped : pyStrip st.card_padding = st.card_padding

/-- Re-validating a dumped style succeeds, reproducing the style except
that `card_front_font` is stripped (the only default with edge
whitespace). -/
def restripStyle (st : Style) : Style :=
  { st with card_front_font := pyStrip st.card_front_font }

theorem buildStyle_rebuild (st : Style) (h : StyleReOK st) :
    buildStyle (dumpStyle st) = Except.ok (restripStyle st) := by
  have htheme : validate_theme st.theme = Except.ok st.theme :=
    validate_theme_of_mem _ h.theme_mem
  have hfont : validate_font st.font = Except.ok st.font := by
    rw [validate_font_of_ne _ h.font_ne, h.font_stripped]
  have hcff : validate_font st.card_front_font =
      Except.ok (pyStrip st.card_front_font) := validate_font_of_ne _ h.cff_ne
  have hcbf : validate_font st.card_back_font = Except.ok st.card_back_font := by
    rw [validate_font_of_ne _ h.cbf_ne, h.cbf_stripped]
  have hcw : validate_dimensions st.card_width = Except.ok st.card_width := by
    have := validate_dimensions_of st.card_width (by rw [h.cw_stripped]; exact h.cw_match)
    rwa [h.cw_stripped] at this
  have hch : validate_dimensions st.card_height = Except.ok st.card_height := by
    have := validate_dimensions_of st.card_height (by rw [h.ch_stripped]; exact h.ch_match)
    rwa [h.ch_stripped] at this
  have hcfb : validate_background st.card_front_background =
      Except.ok st.card_front_background := by
    rw [validate_background_of_ne _ h.cfb_ne, h.cfb_stripped]
  have hcbb : validate_background st.card_back_background =
      Except.ok st.card_back_background := by
    rw [validate_background_of_ne _ h.cbb_ne, h.cbb_stripped]
  have hcfta : validate_text_align st.card_front_text_align =
      Except.ok st.card_front_text_align := validate_text_align_of_mem _ h.cfta_mem
  have hcbta : validate_text_align st.card_back_text_align =
      Except.ok st.card_back_text_align := validate_text_align_of_mem _ h.cbta_mem
  have hcb : validate_border st.card_border = Except.ok st.card_border := by
    rw [validate_border_of_ne _ h.cb_ne, h.cb_stripped]
  have hcbr : validate_css_length st.card_border_radius =
      Except.ok st.card_border_radius := by
    have := validate_css_length_of st.card_border_radius
      (by rw [h.cbr_stripped]; exact h.cbr_match)
    rwa [h.cbr_stripped] at this
  have hcp : validate_css_length st.card_padding = Except.ok st.card_padding := by
    have := validate_css_length_of st.card_padding
      (by rw [h.cp_stripped]; exact h.cp_match)
    rwa [h.cp_stripped] at this
  simp only [buildStyle, dumpStyle, valField, htheme, hfont, hcff, hcbf, hcw, hch,
    hcfb, hcbb, hcfta, hcbta, hcb, hcbr, hcp, Except.bind]
  rfl

/-- The nonemptiness preconditions on the font-like fields (the validators
of these fields reject the empty string, which a whitespace-only user value
strips to). -/
def FontsNonempty (st : Style) : Prop :=
  st.font ≠ "" ∧ st.card_front_font ≠ "" ∧ st.card_back_font ≠ "" ∧
    st.card_front_background ≠ "" ∧ st.card_back_background ≠ "" ∧
    st.card_border ≠ ""

theorem styleReOK_default : StyleReOK defaultStyle := by
  constructor <;> decide

theorem buildStyle_invariants (s : StyleInput) (st : Style)
    (hb : buildStyle s = Except.ok st) (hne : FontsNonempty st) : StyleReOK st := by
  unfold buildStyle at hb
  cases h1 : valField validate_theme s.theme "light" with
  | error e => rw [h1] at hb; exact absurd hb (by simp [Except.bind])
  | ok theme =>
  rw [h1] at hb
  simp only [Except.bind] at hb
  cases h2 : valField validate_font s.font defaultFont with
  | error e => rw [h2] at hb; exact absurd hb (by simp)
  | ok font =>
  rw [h2] at hb
  cases h3 : valField validate_font s.card_front_font defaultCardFrontFont with
  | error e => rw [h3] at hb; exact absurd hb (by simp)
  | ok cff =>
  rw [h3] at hb
  cases h4 : valField validate_font s.card_back_font defaultCardBackFont with
  | error e => rw [h4] at hb; exact absurd hb (by simp)
  | ok cbf =>
  rw [h4] at hb
  cases h5 : valField validate_dimensions s.card_width "74.25mm" with
  | error e => rw [h5] at hb; exact absurd hb (by simp)
  | ok cw =>
  rw [h5] at hb
  cases h6 : valField validate_dimensions s.card_height "105mm" with
  | error e => rw [h6] at hb; exact absurd hb (by simp)
  | ok ch =>
  rw [h6] at hb
  cases h7 : valField validate_background s.card_front_background "#ffffff" with
  | error e => rw [h7] at hb; exact absurd hb (by simp)
  | ok cfb =>
  rw [h7] at hb
  cases h8 : valField validate_background s.card_back_background "#f5f5f5" with
  | error e => rw [h8] at hb; exact absurd hb (by simp)
  | ok cbb =>
  rw [h8] at hb
  cases h9 : valField validate_text_align s.card_front_text_align "center" with
  | error e => rw [h9] at hb; exact absurd hb (by simp)
  | ok cfta =>
  rw [h9] at hb
  cases h10 : valField validate_text_align s.card_back_text_align "center" with
  | error e => rw [h10] at hb; exact absurd hb (by simp)
  | ok cbta =>
  rw [h10] at hb
  cases h11 : valField validate_border s.card_border "1px solid #dddddd" with
  | error e => rw [h11] at hb; exact absurd hb (by simp)
  | ok cb =>
  rw [h11] at hb
  cases h12 : valField validate_css_length s.card_border_radius "8px" with
  | error e => rw [h12] at hb; exact absurd hb (by simp)
  | ok cbr =>
  rw [h12] at hb
  cases h13 : valField validate_css_length s.card_padding "20px" with
  | error e => rw [h13] at hb; exact absurd hb (by simp)
  | ok cp =>
  rw [h13] at hb
  simp only [Except.ok.injEq] at hb
  subst hb
  refine ⟨?_, hne.1, ?_, hne.2.1, hne.2.2.1, ?_, ?_, ?_, ?_, ?_, hne.2.2.2.1, ?_,
    hne.2.2.2.2.1, ?_, ?_, ?_, hne.2.2.2.2.2, ?_, ?_, ?_, ?_, ?_⟩
  · show availableThemes.contains theme = true
    cases hs : s.theme with
    | none => rw [hs] at h1; simp only [valField, Except.ok.injEq] at h1; rw [← h1]; decide
    | some v =>
      rw [hs] at h1
      simp only [valField] at h1
      obtain ⟨hw, hm⟩ := validate_theme_ok v theme h1
      rw [hw]
      exact hm
  · show pyStrip font = font
    cases hs : s.font with
    | none => rw [hs] at h2; simp only [valField, Except.ok.injEq] at h2; rw [← h2]; decide
    | some v =>
      rw [hs] at h2
      simp only [valField] at h2
      obtain ⟨hw, _⟩ := validate_font_ok v font h2
      rw [hw, pyStrip_idem]
  · show pyStrip cbf = cbf
    cases hs : s.card_back_font with
    | none => rw [hs] at h4; simp only [valField, Except.ok.injEq] at h4; rw [← h4]; decide
    | some v =>
      rw [hs] at h4
      simp only [valField] at h4
      obtain ⟨hw, _⟩ := validate_font_ok v cbf h4
      rw [hw, pyStrip_idem]
  · show matchDimension cw = true
    cases hs : s.card_width with
    | none => rw [hs] at h5; simp only [valField, Except.ok.injEq] at h5; rw [← h5]; decide
    | some v =>
      rw [hs] at h5
      simp only [valField] at h5
      obtain ⟨hw, hm⟩ := validate_dimensions_ok v cw h5
      rw [hw]
      exact hm
  · show pyStrip cw = cw
    cases hs : s.card_width with
    | none => rw [hs] at h5; simp only [valField, Except.ok.injEq] at h5; rw [← h5]; decide
    | some v =>
      rw [hs] at h5
      simp only [valField] at h5
      obtain ⟨hw, _⟩ := validate_dimensions_ok v cw h5
      rw [hw, pyStrip_idem]
  · show matchDimension ch = true
    cases hs : s.card_height with
    | none => rw [hs] at h6; simp only [valField, Except.ok.injEq] at h6; rw [← h6]; decide
    | some v =>
      rw [hs] at h6
      simp only [valField] at h6
      obtain ⟨hw, hm⟩ := validate_dimensions_ok v ch h6
      rw [hw]
      exact hm
  · show pyStrip ch = ch
    cases hs : s.card_height with
    | none => rw [hs] at h6; simp only [valField, Except.ok.injEq] at h6; rw [← h6]; decide
    | some v =>
      rw [hs] at h6
      simp only [valField] at h6
      obtain ⟨hw, _⟩ := validate_dimensions_ok v ch h6
      rw [hw, pyStrip_idem]
  · show pyStrip cfb = cfb
    cases hs : s.card_front_background with
    | none => rw [hs] at h7; simp only [valField, Except.ok.injEq] at h7; rw [← h7]; decide
    | some v =>
      rw [hs] at h7
      simp only [valField] at h7
      obtain ⟨hw, _⟩ := validate_background_ok v cfb h7
      rw [hw, pyStrip_idem]
  · show pyStrip cbb = cbb
    cases hs : s.card_back_background with
    | none => rw [hs] at h8; simp only [valField, Except.ok.injEq] at h8; rw [← h8]; decide
    | some v =>
      rw [hs] at h8
      simp only [valField] at h8
      obtain ⟨hw, _⟩ := validate_background_ok v cbb h8
      rw [hw, pyStrip_idem]
  · show validAligns.contains cfta = true
    cases hs : s.card_front_text_align with
    | none => rw [hs] at h9; simp only [valField, Except.ok.injEq] at h9; rw [← h9]; decide
    | some v =>
      rw [hs] at h9
      simp only [valField] at h9
      obtain ⟨hw, hm⟩ := validate_text_align_ok v cfta h9
      rw [hw]
      exact hm
  · show validAligns.contains cbta = true
    cases hs : s.card_back_text_align with
    | none => rw [hs] at h10; simp only [valField, Except.ok.injEq] at h10; rw [← h10]; decide
    | some v =>
      rw [hs] at h10
      simp only [valField] at h10
      obtain ⟨hw, hm⟩ := validate_text_align_ok v cbta h10
      rw [hw]
      exact hm
  · show pyStrip cb = cb
    cases hs : s.card_border with
    | none => rw [hs] at h11; simp only [valField, Except.ok.injEq] at h11; rw [← h11]; decide
    | some v =>
      rw [hs] at h11
      simp only [valField] at h11
      obtain ⟨hw, _⟩ := validate_border_ok v cb h11
      rw [hw, pyStrip_idem]
  · show matchCssLength cbr = true
    cases hs : s.card_border_radius with
    | none => rw [hs] at h12; simp only [valField, Except.ok.injEq] at h12; rw [← h12]; decide
    | some v =>
      rw [hs] at h12
      simp only [valField] at h12
      obtain ⟨hw, hm⟩ := validate_css_length_ok v cbr h12
      rw [hw]
      exact hm
  · show pyStrip cbr = cbr
    cases hs : s.card_border_radius with
    | none => rw [hs] at h12; simp only [valField, Except.ok.injEq] at h12; rw [← h12]; decide
    | some v =>
      rw [hs] at h12
      simp only [valField] at h12
      obtain ⟨hw, _⟩ := validate_css_length_ok v cbr h12
      rw [hw, pyStrip_idem]
  · show matchCssLength cp = true
    cases hs : s.card_padding with
    | none => rw [hs] at h13; simp only [valField, Except.ok.injEq] at h13; rw [← h13]; decide
    | some v =>
      rw [hs] at h13
      simp only [valField] at h13
      obtain ⟨hw, hm⟩ := validate_css_length_ok v cp h13
      rw [hw]
      exact hm
  · show pyStrip cp = cp
    cases hs : s.card_padding with
    | none => rw [hs] at h13; simp only [valField, Except.ok.injEq] at h13; rw [← h13]; decide
    | some v =>
      rw [hs] at h13
      simp only [valField] at h13
      obtain ⟨hw, _⟩ := validate_css_length_ok v cp h13
      rw [hw, pyStrip_idem]

/-! ## Lemmas: metadata re-validation -/

theorem buildMetadata_rebuild (m : Metadata) :
    buildMetadata (dumpMetadata m) = Except.ok m := by
  cases m with
  | mk title description version created_at =>
    cases created_at with
    | none => rfl
    | some t => rfl

theorem fillCardIdsFrom_ids_of_all_none (cs : List Card)
    (h : ∀ c ∈ cs, c.id = none) : ∀ i,
    (fillCardIdsFrom i cs).map Card.id =
      (List.range' (i + 1) cs.length).map fun k => some ("card-" ++ pyStr k) := by
  induction cs with
  | nil => intro i; rfl
  | cons c rest ih =>
    intro i
    have hc : c.id = none := h c (by simp)
    simp only [fillCardIdsFrom, List.map_cons, List.length_cons, List.range']
    rw [fillOne_id, hc]
    simp only [Option.getD, List.map_cons]
    rw [ih (fun x hx => h x (by simp [hx])) (i + 1)]

theorem fillCardIds_get (cs : List Card) (i : Nat)
    (hi : i < (fillCardIds cs).length) (hj : i < cs.length) :
    (fillCardIds cs).get ⟨i, hi⟩ = fillOne i (cs.get ⟨i, hj⟩) := by
  have h0 := fillCardIdsFrom_get cs 0 i hi hj
  rw [Nat.zero_add] at h0
  exact h0

theorem fillCardIds_ids_of_all_none (cs : List Card) (h : ∀ c ∈ cs, c.id = none) :
    (fillCardIds cs).map Card.id =
      (List.range' 1 cs.length).map fun k => some ("card-" ++ pyStr k) :=
  fillCardIdsFrom_ids_of_all_none cs h 0

/-! ## Lemmas: whole-document construction -/

theorem buildFlashcardData_ok (d : InputDoc) (fd : FlashcardData)
    (h : buildFlashcardData d = Except.ok fd) :
    (∃ cs, d.cards = some cs ∧ buildCards cs = Except.ok fd.cards) ∧
      fd.cards.isEmpty = false ∧
      (fd.style = none ∨ fd.style = some defaultStyle ∨
        ∃ si st, d.style = some (some si) ∧ buildStyle si = Except.ok st ∧
          fd.style = some st) := by
  unfold buildFlashcardData at h
  cases hc : d.cards with
  | none =>
    rw [hc] at h
    simp only [buildCardsField] at h
    exact absurd h (by simp [Except.bind])
  | some cs =>
  rw [hc] at h
  simp only [buildCardsField] at h
  cases hbc : buildCards cs with
  | error e =>
    rw [hbc] at h
    exact absurd h (by simp [Except.bind])
  | ok cards =>
  rw [hbc] at h
  simp only [Except.bind, check_cards_not_empty] at h
  by_cases hemp : cards.isEmpty = true
  · rw [if_pos hemp] at h
    exact absurd h (by simp)
  · rw [if_neg hemp] at h
    cases hmm : buildMetadataField d.metadata with
    | error e =>
      rw [hmm] at h
      exact absurd h (by simp [Except.bind])
    | ok mm =>
    rw [hmm] at h
    simp only [Except.bind] at h
    cases hst : d.style with
    | none =>
      rw [hst] at h
      simp only [buildStyleField, Except.bind, Except.ok.injEq] at h
      subst h
      exact ⟨⟨cs, rfl, hbc⟩, by simpa using hemp, Or.inr (Or.inl rfl)⟩
    | some so =>
      cases so with
      | none =>
        rw [hst] at h
        simp only [buildStyleField, Except.bind, Except.ok.injEq] at h
        subst h
        exact ⟨⟨cs, rfl, hbc⟩, by simpa using hemp, Or.inl rfl⟩
      | some si =>
        rw [hst] at h
        simp only [buildStyleField] at h
        cases hbs : buildStyle si with
        | error e =>
          rw [hbs] at h
          exact absurd h (by simp [Except.map, Except.bind])
        | ok st =>
          rw [hbs] at h
          simp only [Except.map, Except.bind, Except.ok.injEq] at h
          subst h
          exact ⟨⟨cs, rfl, hbc⟩, by simpa using hemp,
            Or.inr (Or.inr ⟨si, st, rfl, hbs, rfl⟩)⟩

theorem normalize_shape (d o : InputDoc) (h : normalize_json_data d = Except.ok o) :
    ∃ fd, buildFlashcardData d = Except.ok fd ∧
      o = dumpDoc { fd with cards := fillCardIds fd.cards } := by
  unfold normalize_json_data at h
  cases hb : buildFlashcardData d with
  | error e => rw [hb] at h; exact absurd h (by simp [Except.map])
  | ok fd =>
    rw [hb] at h
    simp only [Except.map, Except.ok.injEq] at h
    exact ⟨fd, rfl, h.symm⟩

/-! ## Re-normalization -/

/-- The effect a second normalization pass has on a dumped style: the
`card_front_font` value is stripped (pydantic skipped the validator when
the default was taken, so the dumped default still carries its trailing
space). -/
def restripStyleInput (s : StyleInput) : StyleInput :=
  { s with card_front_font := s.card_front_font.map pyStrip }

/-- The effect a second normalization pass has on a normalized document. -/
def restripDoc (o : InputDoc) : InputDoc :=
  { o with style := o.style.map (Option.map restripStyleInput) }

/-- The font-like style fields of a normalized document are non-empty
(a whitespace-only user value strips to `""` on the first pass, which the
validators of these fields then reject on a second pass). -/
def docFontsNonempty (o : InputDoc) : Prop :=
  ∀ s, o.style = some (some s) →
    s.font ≠ some "" ∧ s.card_front_font ≠ some "" ∧ s.card_back_font ≠ some "" ∧
      s.card_front_background ≠ some "" ∧ s.card_back_background ≠ some "" ∧
      s.card_border ≠ some ""

theorem dumpStyle_restrip_comm (st : Style) :
    dumpStyle (restripStyle st) = restripStyleInput (dumpStyle st) := rfl

theorem fontsNonempty_of_doc (st : Style) (o : InputDoc)
    (ho : o.style = some (some (dumpStyle st))) (hf : docFontsNonempty o) :
    FontsNonempty st := by
  obtain ⟨h1, h2, h3, h4, h5, h6⟩ := hf (dumpStyle st) ho
  refine ⟨?_, ?_, ?_, ?_, ?_, ?_⟩ <;> intro he
  · exact h1 (by simp [dumpStyle, he])
  · exact h2 (by simp [dumpStyle, he])
  · exact h3 (by simp [dumpStyle, he])
  · exact h4 (by simp [dumpStyle, he])
  · exact h5 (by simp [dumpStyle, he])
  · exact h6 (by simp [dumpStyle, he])

theorem normalize_renormalize (d o : InputDoc)
    (h : normalize_json_data d = Except.ok o) (hf : docFontsNonempty o) :
    normalize_json_data o = Except.ok (restripDoc o) := by
  obtain ⟨fd, hb, ho⟩ := normalize_shape d o h
  obtain ⟨⟨cs, hcs, hbc⟩, hemp, hstyle⟩ := buildFlashcardData_ok d fd hb
  obtain ⟨fcards, fmeta, fsty⟩ := fd
  dsimp only at hbc hemp hstyle ho
  have hfronts : ∀ c ∈ fillCardIds fcards, pyStrip c.front ≠ "" :=
    fillCardIdsFrom_fronts fcards (fun f => pyStrip f ≠ "")
      (buildCards_fronts cs fcards hbc) 0
  have hrebuild : buildCards ((fillCardIds fcards).map dumpCard) =
      Except.ok (fillCardIds fcards) :=
    buildCards_rebuild (fillCardIds fcards) hfronts
  have hlen : (fillCardIds fcards).isEmpty = false := by
    cases hfc : fillCardIds fcards with
    | cons a t => rfl
    | nil =>
      exfalso
      have h0 := congrArg List.length hfc
      simp only [fillCardIds, fillCardIdsFrom_length] at h0
      cases hcards : fcards with
      | nil => rw [hcards] at hemp; simp at hemp
      | cons a t => rw [hcards] at h0; simp at h0
  have hfill : fillCardIds (fillCardIds fcards) = fillCardIds fcards :=
    fillCardIdsFrom_of_all_some (fillCardIds fcards)
      (fillCardIdsFrom_id_isSome fcards 0) 0
  subst ho
  have hsecond : buildFlashcardData
      (dumpDoc { cards := fillCardIds fcards, metadata := fmeta, style := fsty }) =
      Except.ok { cards := fillCardIds fcards, metadata := fmeta, style := fsty.map restripStyle } := by
    have hreok : ∀ st, fsty = some st → StyleReOK st := by
      intro st hst
      rcases hstyle with hnone | hdflt | ⟨si, st2, hdsty, hbs, hsome⟩
      · rw [hnone] at hst; exact absurd hst (by simp)
      · rw [hdflt] at hst
        simp only [Option.some.injEq] at hst
        rw [← hst]
        exact styleReOK_default
      · rw [hsome] at hst
        simp only [Option.some.injEq] at hst
        rw [hst] at hbs hsome
        apply buildStyle_invariants si st hbs
        apply fontsNonempty_of_doc st
          (dumpDoc { cards := fillCardIds fcards, metadata := fmeta, style := fsty })
        · simp [dumpDoc, hsome]
        · exact hf
    cases fmeta with
    | none =>
      cases fsty with
      | none =>
        simp only [buildFlashcardData, dumpDoc, Option.map, buildCardsField,
          buildMetadataField, buildStyleField]
        rw [hrebuild]
        simp only [Except.bind, check_cards_not_empty]
        rw [if_neg (by rw [hlen]; exact Bool.false_ne_true)]
      | some st =>
        simp only [buildFlashcardData, dumpDoc, Option.map, buildCardsField,
          buildMetadataField, buildStyleField]
        rw [hrebuild]
        simp only [Except.bind, check_cards_not_empty]
        rw [if_neg (by rw [hlen]; exact Bool.false_ne_true)]
        rw [buildStyle_rebuild st (hreok st rfl)]
        rfl
    | some m =>
      cases fsty with
      | none =>
        simp only [buildFlashcardData, dumpDoc, Option.map, buildCardsField,
          buildMetadataField, buildStyleField]
        rw [hrebuild]
        simp only [Except.bind, check_cards_not_empty]
        rw [if_neg (by rw [hlen]; exact Bool.false_ne_true)]
        rw [buildMetadata_rebuild]
        rfl
      | some st =>
        simp only [buildFlashcardData, dumpDoc, Option.map, buildCardsField,
          buildMetadataField, buildStyleField]
        rw [hrebuild]
        simp only [Except.bind, check_cards_not_empty]
        rw [if_neg (by rw [hlen]; exact Bool.false_ne_true)]
        rw [buildMetadata_rebuild]
        simp only [Except.map, Except.bind]
        rw [buildStyle_rebuild st (hreok st rfl)]
  unfold normalize_json_data
  rw [hsecond]
  simp only [Except.map, Except.ok.injEq]
  simp only [dumpDoc, restripDoc, restripStyleInput]
  rw [hfill]
  cases fsty with
  | none => rfl
  | some st => rfl

/-! ## Lemmas: CSV extraction -/

theorem selectCell_ok (row : List String) (i : Nat) (p : String)
    (h : selectCell row i = some p) : pyStrip p = p ∧ p ≠ "" := by
  unfold selectCell at h
  cases hcell : row.get? i with
  | none =>
    simp only [hcell] at h
    exact absurd h (by simp)
  | some cell =>
    simp only [hcell] at h
    by_cases hs : pyStrip cell = ""
    · rw [if_pos hs] at h
      exact absurd h (by simp)
    · rw [if_neg hs] at h
      simp only [Option.some.injEq] at h
      subst h
      exact ⟨pyStrip_idem cell, hs⟩

theorem pyJoin_data_cons (sep p : String) (ps : List String) :
    ∃ r, (pyJoin sep (p :: ps)).data = p.data ++ r := by
  cases ps with
  | nil => exact ⟨[], by simp [pyJoin]⟩
  | cons q qs =>
    refine ⟨sep.data ++ (pyJoin sep (q :: qs)).data, ?_⟩
    simp [pyJoin, String.data_append, List.append_assoc]

theorem pyStrip_joinColumns_ne (row : List String) (cols : List Nat) (sep : String)
    (h : joinColumns row cols sep ≠ "") : pyStrip (joinColumns row cols sep) ≠ "" := by
  unfold joinColumns at h ⊢
  cases hparts : cols.filterMap (selectCell row) with
  | nil =>
    rw [hparts] at h
    exact absurd rfl h
  | cons p ps =>
    have hpmem : p ∈ cols.filterMap (selectCell row) := by
      rw [hparts]
      exact List.mem_cons_self p ps
    obtain ⟨i, _, hsel⟩ := List.mem_filterMap.mp hpmem
    obtain ⟨hst, hne⟩ := selectCell_ok row i p hsel
    obtain ⟨c, hc, hcs⟩ := exists_nonspace_of_stripped p hst hne
    obtain ⟨r, hr⟩ := pyJoin_data_cons sep p ps
    apply pyStrip_ne_empty_of_mem _ c _ hcs
    rw [hr]
    exact List.mem_append.mpr (Or.inl hc)

theorem rowToCard_ok (frontCols backCols : List Nat) (tagsCol : Option Nat)
    (sep : String) (row : List String) (ci : CardInput)
    (h : rowToCard frontCols backCols tagsCol sep row = some ci) :
    ci.id = none ∧ ∃ f, ci.front = some f ∧ pyStrip f ≠ "" := by
  unfold rowToCard at h
  by_cases h1 : row = []
  · rw [if_pos h1] at h
    exact absurd h (by simp)
  · rw [if_neg h1] at h
    by_cases h2 : row.length ≤ rowMaxIndex frontCols backCols tagsCol
    · rw [if_pos h2] at h
      exact absurd h (by simp)
    · rw [if_neg h2] at h
      by_cases h3 : joinColumns row frontCols sep = ""
      · rw [if_pos h3] at h
        exact absurd h (by simp)
      · rw [if_neg h3] at h
        simp only [Option.some.injEq] at h
        subst h
        refine ⟨rfl, ⟨joinColumns row frontCols sep, rfl, ?_⟩⟩
        exact pyStrip_joinColumns_ne row frontCols sep h3

theorem buildCard_of_front (ci : CardInput) (f : String) (hf : ci.front = some f)
    (hs : pyStrip f ≠ "") :
    buildCard ci = Except.ok
      { id := ci.id, front := f, back := ci.back.getD "", tags := ci.tags.getD [] } := by
  unfold buildCard
  simp only [hf, check_empty_string]
  rw [if_neg hs]
  simp only [Except.bind]
  rw [if_neg (length_pos_of_ne_empty f (ne_empty_of_pyStrip_ne_empty f hs))]

theorem buildCards_of_fronts (cis : List CardInput)
    (h : ∀ ci ∈ cis, ∃ f, ci.front = some f ∧ pyStrip f ≠ "") :
    ∃ cs, buildCards cis = Except.ok cs ∧ cs.length = cis.length := by
  induction cis with
  | nil => exact ⟨[], rfl, rfl⟩
  | cons ci rest ih =>
    obtain ⟨f, hf, hs⟩ := h ci (by simp)
    obtain ⟨cs, hcs, hlen⟩ := ih fun x hx => h x (by simp [hx])
    refine ⟨{ id := ci.id, front := f, back := ci.back.getD "", tags := ci.tags.getD [] } :: cs, ?_, by simp [hlen]⟩
    unfold buildCards
    rw [buildCard_of_front ci f hf hs]
    simp only [Except.bind]
    rw [hcs]
    rfl

theorem csvCandidate_mem (rows : List (List String)) (frontCols backCols : List Nat)
    (tagsCol : Option Nat) (hasHeader : Bool) (sep : String) (ci : CardInput)
    (h : ci ∈ csvCandidateCards rows frontCols backCols tagsCol hasHeader sep) :
    ∃ row, rowToCard frontCols backCols tagsCol sep row = some ci := by
  obtain ⟨row, _, hrow⟩ := List.mem_filterMap.mp h
  exact ⟨row, hrow⟩

theorem convert_csv_ok (rows : List (List String)) (fp : String)
    (titleOpt : Option String) (fcO bcO : Option (List Nat)) (tc : Option Nat)
    (hh : Bool) (sep : String)
    (hne : csvCandidateCards rows (fcO.getD [0]) (bcO.getD [1]) tc hh sep ≠ []) :
    ∃ cards,
      buildCards (csvCandidateCards rows (fcO.getD [0]) (bcO.getD [1]) tc hh sep) =
        Except.ok cards ∧
      cards.length = (csvCandidateCards rows (fcO.getD [0]) (bcO.getD [1]) tc hh sep).length ∧
      convert_csv_to_json_data rows fp titleOpt fcO bcO tc hh sep =
        Except.ok (dumpDoc
          { cards := fillCardIds cards,
            metadata := some
              { title := titleOpt.getD (pySplitextStem (pyBasename fp)),
                description := csvDescription (pyBasename fp)
                  (csvCandidateCards rows (fcO.getD [0]) (bcO.getD [1]) tc hh sep).length,
                version := "1.0.0", created_at := none },
            style := some defaultStyle }) := by
  have hfr : ∀ ci ∈ csvCandidateCards rows (fcO.getD [0]) (bcO.getD [1]) tc hh sep,
      ∃ f, ci.front = some f ∧ pyStrip f ≠ "" := by
    intro ci hci
    obtain ⟨row, hrow⟩ := csvCandidate_mem rows _ _ tc hh sep ci hci
    exact (rowToCard_ok _ _ tc sep row ci hrow).2
  obtain ⟨cards, hbc, hlen⟩ :=
    buildCards_of_fronts (csvCandidateCards rows (fcO.getD [0]) (bcO.getD [1]) tc hh sep) hfr
  refine ⟨cards, hbc, hlen, ?_⟩
  have hcne : cards.isEmpty = false := by
    cases hcc : cards with
    | cons a t => rfl
    | nil =>
      exfalso
      apply hne
      rw [hcc] at hlen
      cases hcand : csvCandidateCards rows (fcO.getD [0]) (bcO.getD [1]) tc hh sep with
      | nil => rfl
      | cons a t => rw [hcand] at hlen; simp at hlen
  unfold convert_csv_to_json_data
  rw [if_neg hne]
  unfold normalize_json_data
  have hbfd : buildFlashcardData
      { cards := some (csvCandidateCards rows (fcO.getD [0]) (bcO.getD [1]) tc hh sep),
        metadata := some (some (csvMetadata fp
          (titleOpt.getD (pySplitextStem (pyBasename fp)))
          (csvCandidateCards rows (fcO.getD [0]) (bcO.getD [1]) tc hh sep).length)),
        style := none } =
      Except.ok
        { cards := cards,
          metadata := some
            { title := titleOpt.getD (pySplitextStem (pyBasename fp)),
              description := csvDescription (pyBasename fp)
                (csvCandidateCards rows (fcO.getD [0]) (bcO.getD [1]) tc hh sep).length,
              version := "1.0.0", created_at := none },
          style := some defaultStyle } := by
    unfold buildFlashcardData
    simp only [buildCardsField, buildMetadataField, buildStyleField]
    rw [hbc]
    simp only [Except.bind, check_cards_not_empty]
    rw [if_neg (by rw [hcne]; exact Bool.false_ne_true)]
    rfl
  rw [hbfd]
  rfl

/-! ## Helpers for the claim statements -/

/-- Whether an `Except` result is a success. -/
def isOkB (e : Except String InputDoc) : Bool :=
  match e with
  | Except.ok _ => true
  | Except.error _ => false

/-- The `style.card_front_font` entry of a normalized document, when its
style block is present. -/
def styleCardFrontFont (o : InputDoc) : Option (Option String) :=
  match o.style with
  | some (some s) => some s.card_front_font
  | _ => none

theorem buildCards_replicate (ci : CardInput) (c : Card) (h : buildCard ci = Except.ok c) :
    ∀ n, buildCards (List.replicate n ci) = Except.ok (List.replicate n c) := by
  intro n
  induction n with
  | zero => rfl
  | succ n ih =>
    rw [List.replicate_succ]
    unfold buildCards
    rw [h]
    simp only [Except.bind]
    rw [ih]
    rw [List.replicate_succ]
    rfl

theorem pyStartsWith_hash_append (v : String) : pyStartsWith ("#" ++ v) '#' = true := by
  simp [pyStartsWith, String.data_append]

/-! ## Claim theorems -/

/-- C1: the claim says the Normalizer rejects documents exceeding the
configured validation limits (e.g. more than `max_cards` cards).  The code
never consults `JSON_VALIDATION_CONFIG`: a document with `maxCards + 1`
cards still validates, so the limits are documented configuration that the
validator fails to enforce (code bug relative to the config's own
documentation). -/
theorem c1_limits_not_enforced :
    maxCards < (List.replicate (maxCards + 1) ({ front := some "Q" } : CardInput)).length ∧
    (validate_json_structure
      { cards := some (List.replicate (maxCards + 1) { front := some "Q" }) }).is_valid
      = true := by
  constructor
  · simp
  · have hb : buildCards (List.replicate (maxCards + 1) { front := some "Q" }) =
        Except.ok (List.replicate (maxCards + 1)
          { id := none, front := "Q", back := "", tags := [] }) :=
      buildCards_replicate _ _ (by decide) _
    have hbfd : buildFlashcardData
        { cards := some (List.replicate (maxCards + 1) { front := some "Q" }) } =
        Except.ok
          { cards := List.replicate (maxCards + 1)
              { id := none, front := "Q", back := "", tags := [] },
            metadata := some defaultMetadata, style := some defaultStyle } := by
      unfold buildFlashcardData
      simp only [buildCardsField, buildMetadataField, buildStyleField]
      rw [hb]
      simp only [Except.bind, check_cards_not_empty]
      rw [if_neg (by rw [List.replicate_succ]; simp)]
    unfold validate_json_structure
    rw [hbfd]

/-- C2 counterexample: the claim says HTML generation fails fast with a
`TemplateNotFoundError` once the template-resolution chain is exhausted.
At a concrete exhausted chain (the configured `minimal` template whose file
is absent from disk) the code instead renders the fabricated inline
fallback template and raises nothing. -/
theorem c2_counterexample :
    renderTemplateOutcome (fun _ => none) "minimal" =
      RenderOutcome.rendered TemplateChoice.inlineFallback ∧
    renderTemplateOutcome (fun _ => none) "minimal" ≠
      RenderOutcome.templateNotFoundError := by
  exact ⟨rfl, by decide⟩

/-- C2 (amended): when the template-resolution chain is exhausted (unknown
template name, missing file, or empty/unreadable content), HTML generation
does not fail: it silently substitutes the built-in inline fallback
template, and never raises a template-not-found error. -/
theorem c2_inline_fallback (disk : String → Option String) (template : String)
    (hx : templateFileContent disk template = none ∨
      templateFileContent disk template = some "") :
    renderTemplateOutcome disk template =
      RenderOutcome.rendered TemplateChoice.inlineFallback ∧
    renderTemplateOutcome disk template ≠ RenderOutcome.templateNotFoundError := by
  unfold renderTemplateOutcome chooseTemplateContent
  rcases hx with hx | hx
  · rw [hx]
    exact ⟨rfl, by simp⟩
  · simp only [hx]
    exact ⟨by simp, by simp⟩

/-- C2 witness: the amended claim at a concrete input: an empty disk and the
configured template name `minimal`. -/
theorem c2_inline_fallback_witness :
    templateFileContent (fun _ => none) "minimal" = none ∧
    renderTemplateOutcome (fun _ => none) "minimal" =
      RenderOutcome.rendered TemplateChoice.inlineFallback :=
  ⟨rfl, (c2_inline_fallback (fun _ => none) "minimal" (Or.inl rfl)).1⟩

/-- C3: for every input mapping, `validate_json_structure` totally returns
a result record whose `is_valid` flag agrees exactly with
`normalize_json_data` succeeding, and carries an error message exactly when
invalid; in particular `normalize_json_data` raises on exactly the inputs
`validate_json_structure` flags invalid. -/
theorem c3_validate_normalize_agree (d : InputDoc) :
    (validate_json_structure d).is_valid = isOkB (normalize_json_data d) ∧
    (validate_json_structure d).error.isSome = !(validate_json_structure d).is_valid := by
  unfold validate_json_structure normalize_json_data isOkB
  cases hb : buildFlashcardData d with
  | ok fd => exact ⟨rfl, rfl⟩
  | error e => exact ⟨rfl, rfl⟩

/-- C7: theme gating: `validate_theme` accepts a theme name exactly when it
is one of the configured `available_themes`, and fails with the
unknown-theme error otherwise; in particular `neon` is rejected and `light`
accepted. -/
theorem c7_theme_gating :
    (∀ t, validate_theme t = Except.ok t ↔ availableThemes.contains t = true) ∧
    (∀ t, (∃ e, validate_theme t = Except.error e) ↔ availableThemes.contains t = false) ∧
    validate_theme "neon" = Except.error "无效的主题: neon" ∧
    validate_theme "light" = Except.ok "light" := by
  refine ⟨?_, ?_, by decide, by decide⟩
  · intro t
    unfold validate_theme
    by_cases hm : availableThemes.contains t = true
    · rw [if_pos hm]
      exact ⟨fun _ => hm, fun _ => rfl⟩
    · rw [if_neg hm]
      constructor
      · intro hcon
        exact absurd hcon (by simp)
      · intro hmem
        rw [hmem] at hm
        exact absurd rfl hm
  · intro t
    unfold validate_theme
    by_cases hm : availableThemes.contains t = true
    · rw [if_pos hm]
      constructor
      · intro ⟨e, he⟩
        exact absurd he (by simp)
      · intro hf
        rw [hf] at hm
        exact absurd hm (by simp)
    · rw [if_neg hm]
      constructor
      · intro _
        cases hcc : availableThemes.contains t with
        | true => exact absurd hcc hm
        | false => rfl
      · intro _
        exact ⟨"无效的主题: " ++ t, rfl⟩

/-- C8: color normalization: every user color value not starting with `#`
has `#` prepended and values already starting with `#` are unchanged; the
normalization is idempotent (bare `007bff` and `#007bff` yield the
identical resolved value `#007bff`), and the merge treats each color key
independently (merging a concatenation equals merging in sequence). -/
theorem c8_color_normalization :
    (mergeUserColors defaultStyleColors [("primary", "007bff")] =
      mergeUserColors defaultStyleColors [("primary", "#007bff")]) ∧
    (assocGet (mergeUserColors defaultStyleColors [("primary", "007bff")]) "primary" =
      some "#007bff") ∧
    (∀ v, normalizeColorValue v = if pyStartsWith v '#' then v else "#" ++ v) ∧
    (∀ v, normalizeColorValue (normalizeColorValue v) = normalizeColorValue v) ∧
    (∀ ds u1 u2, mergeUserColors ds (u1 ++ u2) =
      mergeUserColors (mergeUserColors ds u1) u2) := by
  refine ⟨by decide, by decide, fun v => rfl, ?_, ?_⟩
  · intro v
    unfold normalizeColorValue
    by_cases hs : pyStartsWith v '#' = true
    · rw [if_pos hs, if_pos hs]
    · rw [if_neg hs]
      rw [if_pos (pyStartsWith_hash_append v)]
  · intro ds u1 u2
    unfold mergeUserColors
    rw [List.foldl_append]

/-- C9: the non-emptiness invariants: a document with an empty cards list
is invalid whatever its other fields, and a card whose front is
whitespace-only (here three spaces, a non-empty raw string) is invalid
whatever the remaining fields. -/
theorem c9_nonempty_invariants :
    (∀ m s, (validate_json_structure
      { cards := some [], metadata := m, style := s }).is_valid = false) ∧
    (∀ m s idv backv tagsv, (validate_json_structure
      { cards := some [{ id := idv, front := some "   ", back := backv, tags := tagsv }],
        metadata := m, style := s }).is_valid = false) ∧
    ("   " : String) ≠ "" := by
  refine ⟨fun m s => rfl, fun m s idv backv tagsv => ?_, by decide⟩
  rfl

/-- A minimal valid document (used to exhibit the C4 non-idempotence). -/
def c4InputDoc : InputDoc := { cards := some [{ front := some "Q1" }] }

/-- The normalization of `c4InputDoc`, written through the dump of its
validated model. -/
def c4NormalizedDoc : InputDoc :=
  dumpDoc
    { cards := fillCardIds [{ id := none, front := "Q1", back := "", tags := [] }],
      metadata := some defaultMetadata, style := some defaultStyle }

/-- C4 counterexample: the claim says normalization is idempotent with
byte-identical output.  On a one-card document without a style block the
second pass strips the `card_front_font` default (which the first pass
emitted verbatim with its trailing space, pydantic not validating default
values), so the outputs differ. -/
theorem c4_counterexample :
    ((normalize_json_data c4InputDoc).bind normalize_json_data ≠
      normalize_json_data c4InputDoc) ∧
    (normalize_json_data c4InputDoc).map styleCardFrontFont =
      Except.ok (some (some "24px/1.2 Arial, sans-serif, ")) ∧
    ((normalize_json_data c4InputDoc).bind normalize_json_data).map styleCardFrontFont =
      Except.ok (some (some "24px/1.2 Arial, sans-serif,")) := by
  refine ⟨by decide, by decide, by decide⟩

/-- C4 (amended): re-normalizing a normalized document assigns no new card
ids and reproduces the document byte-for-byte except that the
`card_front_font` style value is stripped of edge whitespace; this holds
whenever the font-like style fields of the normalized document are
non-empty (a whitespace-only user font strips to the empty string, which
the second pass rejects). -/
theorem c4_renormalize_restrip (d o : InputDoc)
    (h : normalize_json_data d = Except.ok o) (hf : docFontsNonempty o) :
    normalize_json_data o = Except.ok (restripDoc o) ∧
    (restripDoc o).cards = o.cards := by
  exact ⟨normalize_renormalize d o h hf, rfl⟩

/-- C4 witness: the amended claim at the concrete one-card document. -/
theorem c4_renormalize_restrip_witness :
    normalize_json_data c4InputDoc = Except.ok c4NormalizedDoc ∧
    normalize_json_data c4NormalizedDoc = Except.ok (restripDoc c4NormalizedDoc) ∧
    (restripDoc c4NormalizedDoc).cards = c4NormalizedDoc.cards := by
  have h1 : normalize_json_data c4InputDoc = Except.ok c4NormalizedDoc := by decide
  have h2 : docFontsNonempty c4NormalizedDoc := by
    intro s hs
    have hs2 : s = dumpStyle defaultStyle := by
      have h3 : c4NormalizedDoc.style = some (some (dumpStyle defaultStyle)) := rfl
      rw [h3] at hs
      simp only [Option.some.injEq] at hs
      exact hs.symm
    subst hs2
    refine ⟨by decide, by decide, by decide, by decide, by decide, by decide⟩
  have h := c4_renormalize_restrip c4InputDoc c4NormalizedDoc h1 h2
  exact ⟨h1, h.1, h.2⟩

/-- C5: `normalize_json_data` assigns `card-{i + 1}` (1-based, input order)
to exactly the cards whose id is absent and keeps supplied ids verbatim;
when every input card lacks an id, the output ids are pairwise distinct. -/
theorem c5_id_assignment (d o : InputDoc) (cin cout : List CardInput)
    (hd : d.cards = some cin) (h : normalize_json_data d = Except.ok o)
    (ho : o.cards = some cout) :
    cout.length = cin.length ∧
    (∀ i (hi : i < cout.length) (hj : i < cin.length),
      (cout.get ⟨i, hi⟩).id =
        some (((cin.get ⟨i, hj⟩).id).getD ("card-" ++ pyStr (i + 1)))) ∧
    ((∀ ci ∈ cin, ci.id = none) → (cout.map CardInput.id).Nodup) := by
  obtain ⟨fd, hb, hshape⟩ := normalize_shape d o h
  obtain ⟨⟨cs, hcs, hbc⟩, hemp, _⟩ := buildFlashcardData_ok d fd hb
  rw [hd] at hcs
  simp only [Option.some.injEq] at hcs
  subst hcs
  have hocards : o.cards = some ((fillCardIds fd.cards).map dumpCard) := by
    rw [hshape]
    rfl
  rw [ho] at hocards
  simp only [Option.some.injEq] at hocards
  subst hocards
  have hblen : fd.cards.length = cin.length := buildCards_ok_length cin fd.cards hbc
  have hflen : (fillCardIds fd.cards).length = fd.cards.length :=
    fillCardIdsFrom_length 0 fd.cards
  have hlen : ((fillCardIds fd.cards).map dumpCard).length = cin.length := by
    rw [List.length_map, hflen, hblen]
  refine ⟨hlen, ?_, ?_⟩
  · intro i hi hj
    have hi2 : i < (fillCardIds fd.cards).length := by
      rw [hflen, hblen]
      exact hj
    have hi3 : i < fd.cards.length := by
      rw [hblen]
      exact hj
    have hget : ((fillCardIds fd.cards).map dumpCard).get ⟨i, hi⟩ =
        dumpCard ((fillCardIds fd.cards).get ⟨i, hi2⟩) := by
      simp
    rw [hget]
    rw [fillCardIds_get fd.cards i hi2 hi3]
    have hid : (dumpCard (fillOne i (fd.cards.get ⟨i, hi3⟩))).id =
        (fillOne i (fd.cards.get ⟨i, hi3⟩)).id := rfl
    rw [hid, fillOne_id]
    have hcard := buildCard_ok (cin.get ⟨i, hj⟩) (fd.cards.get ⟨i, hi3⟩)
      (buildCards_ok_get cin fd.cards hbc i hi3 hj)
    rw [hcard.2.1]
  · intro hnone
    have hfdnone : ∀ c ∈ fd.cards, c.id = none := by
      intro c hc
      obtain ⟨⟨i, hi⟩, hgc⟩ := List.mem_iff_get.mp hc
      have hj : i < cin.length := by rw [← hblen]; exact hi
      have hcard := buildCard_ok (cin.get ⟨i, hj⟩) (fd.cards.get ⟨i, hi⟩)
        (buildCards_ok_get cin fd.cards hbc i hi hj)
      rw [← hgc, hcard.2.1]
      exact hnone _ (List.get_mem cin i hj)
    have hmapeq : ((fillCardIds fd.cards).map dumpCard).map CardInput.id =
        (fillCardIds fd.cards).map Card.id := by
      rw [List.map_map]
      rfl
    rw [hmapeq, fillCardIds_ids_of_all_none fd.cards hfdnone]
    exact (List.nodup_range' _ _).map cardId_injective

/-- The two-card input of the C5 witness. -/
def c5InCards : List CardInput :=
  [{ front := some "Q1" }, { front := some "Q2", back := some "A2", tags := some ["x"] }]

/-- The normalized cards of the C5 witness. -/
def c5OutCards : List CardInput :=
  [{ id := some "card-1", front := some "Q1", back := some "", tags := some [] },
   { id := some "card-2", front := some "Q2", back := some "A2", tags := some ["x"] }]

/-- The normalized document of the C5 witness. -/
def c5OutDoc : InputDoc :=
  { cards := some c5OutCards,
    metadata := some (some (dumpMetadata defaultMetadata)),
    style := some (some (dumpStyle defaultStyle)) }

/-- C5 witness: the id-assignment theorem at a concrete two-card document
with all ids absent. -/
theorem c5_id_assignment_witness :
    c5OutCards.length = c5InCards.length ∧ (c5OutCards.map CardInput.id).Nodup := by
  have h := c5_id_assignment { cards := some c5InCards } c5OutDoc c5InCards c5OutCards
    rfl (by decide) rfl
  exact ⟨h.1, h.2.2 (by decide)⟩

/-- C6: CSV ragged-row tolerance: with header `a,b,c`, data rows `x,y,z`
and `x,y`, front column 0 and back column 2, extraction yields exactly the
one card `front="x", back="z"` (the short row is skipped silently); and in
general extraction fails — always with `EmptyResultError` — exactly when
the row loop produced zero cards. -/
theorem c6_csv_row_tolerance :
    ((convert_csv_to_json_data [["a", "b", "c"], ["x", "y", "z"], ["x", "y"]] "test.csv"
        none (some [0]) (some [2]) none true " ").map
      (fun o => (o.cards.getD []).map fun c => (c.front, c.back)) =
      Except.ok [(some "x", some "z")]) ∧
    (∀ rows fp titleOpt fcO bcO tc hh sep,
      (convert_csv_to_json_data rows fp titleOpt fcO bcO tc hh sep =
          Except.error csvEmptyError ↔
        csvCandidateCards rows (fcO.getD [0]) (bcO.getD [1]) tc hh sep = []) ∧
      ((∃ o, convert_csv_to_json_data rows fp titleOpt fcO bcO tc hh sep =
          Except.ok o) ∨
        convert_csv_to_json_data rows fp titleOpt fcO bcO tc hh sep =
          Except.error csvEmptyError)) := by
  refine ⟨by decide, ?_⟩
  intro rows fp titleOpt fcO bcO tc hh sep
  by_cases hne : csvCandidateCards rows (fcO.getD [0]) (bcO.getD [1]) tc hh sep = []
  · have herr : convert_csv_to_json_data rows fp titleOpt fcO bcO tc hh sep =
        Except.error csvEmptyError := by
      unfold convert_csv_to_json_data
      rw [if_pos hne]
    exact ⟨⟨fun _ => hne, fun _ => herr⟩, Or.inr herr⟩
  · obtain ⟨cards, _, _, hok⟩ := convert_csv_ok rows fp titleOpt fcO bcO tc hh sep hne
    constructor
    · constructor
      · intro hcon
        rw [hok] at hcon
        exact absurd hcon (by simp)
      · intro hx
        exact absurd hx hne
    · exact Or.inl ⟨_, hok⟩

/-- C10: every document CSV conversion returns is already fully normalized:
it has at least one card, card `i` carries the generated id `card-{i + 1}`
and a front that is non-empty after stripping, the metadata carries the
caller title (or the filename stem) and the auto-generated description
naming the card count, and the style block is the fully-filled default
(template `minimal`, theme `light`). -/
theorem c10_csv_normalized (rows : List (List String)) (fp : String)
    (titleOpt : Option String) (fcO bcO : Option (List Nat)) (tc : Option Nat)
    (hh : Bool) (sep : String) (o : InputDoc)
    (h : convert_csv_to_json_data rows fp titleOpt fcO bcO tc hh sep = Except.ok o) :
    ∃ cs, o.cards = some cs ∧ cs ≠ [] ∧
      (∀ i (hi : i < cs.length),
        (cs.get ⟨i, hi⟩).id = some ("card-" ++ pyStr (i + 1)) ∧
        ∃ f, (cs.get ⟨i, hi⟩).front = some f ∧ pyStrip f ≠ "") ∧
      o.metadata = some (some
        { title := some (titleOpt.getD (pySplitextStem (pyBasename fp))),
          description := some (csvDescription (pyBasename fp) cs.length),
          version := some "1.0.0", created_at := none }) ∧
      o.style = some (some (dumpStyle defaultStyle)) ∧
      (dumpStyle defaultStyle).template = some "minimal" ∧
      (dumpStyle defaultStyle).theme = some "light" := by
  by_cases hne : csvCandidateCards rows (fcO.getD [0]) (bcO.getD [1]) tc hh sep = []
  · exfalso
    have herr : convert_csv_to_json_data rows fp titleOpt fcO bcO tc hh sep =
        Except.error csvEmptyError := by
      unfold convert_csv_to_json_data
      rw [if_pos hne]
    rw [herr] at h
    exact absurd h (by simp)
  · obtain ⟨cards, hbc, hclen, hok⟩ := convert_csv_ok rows fp titleOpt fcO bcO tc hh sep hne
    rw [hok] at h
    simp only [Except.ok.injEq] at h
    subst h
    refine ⟨(fillCardIds cards).map dumpCard, rfl, ?_, ?_, ?_, rfl, rfl, rfl⟩
    · intro hc
      apply hne
      have h0 := congrArg List.length hc
      simp only [List.length_map, fillCardIds, fillCardIdsFrom_length, hclen] at h0
      cases hcand : csvCandidateCards rows (fcO.getD [0]) (bcO.getD [1]) tc hh sep with
      | nil => rfl
      | cons a t => rw [hcand] at h0; simp at h0
    · intro i hi
      have hi2 : i < (fillCardIds cards).length := by
        simpa using hi
      have hi3 : i < cards.length := by
        rw [fillCardIds, fillCardIdsFrom_length] at hi2
        exact hi2
      have hj : i < (csvCandidateCards rows (fcO.getD [0]) (bcO.getD [1]) tc hh sep).length := by
        rw [← hclen]
        exact hi3
      have hget : (((fillCardIds cards).map dumpCard).get ⟨i, hi⟩) =
          dumpCard ((fillCardIds cards).get ⟨i, hi2⟩) := by
        simp
      have hcard := buildCard_ok
        ((csvCandidateCards rows (fcO.getD [0]) (bcO.getD [1]) tc hh sep).get ⟨i, hj⟩)
        (cards.get ⟨i, hi3⟩)
        (buildCards_ok_get _ cards hbc i hi3 hj)
      have hrow := csvCandidate_mem rows _ _ tc hh sep _
        (List.get_mem (csvCandidateCards rows (fcO.getD [0]) (bcO.getD [1]) tc hh sep)
          i hj)
      obtain ⟨row, hrc⟩ := hrow
      have hidnone := (rowToCard_ok _ _ tc sep row _ hrc).1
      constructor
      · rw [hget]
        have hid : (dumpCard ((fillCardIds cards).get ⟨i, hi2⟩)).id =
            ((fillCardIds cards).get ⟨i, hi2⟩).id := rfl
        rw [hid, fillCardIds_get cards i hi2 hi3, fillOne_id, hcard.2.1, hidnone]
        rfl
      · refine ⟨(cards.get ⟨i, hi3⟩).front, ?_, ?_⟩
        · rw [hget]
          have hfr : (dumpCard ((fillCardIds cards).get ⟨i, hi2⟩)).front =
              some (((fillCardIds cards).get ⟨i, hi2⟩).front) := rfl
          rw [hfr, fillCardIds_get cards i hi2 hi3, fillOne_front]
        · exact buildCards_fronts _ cards hbc _ (List.get_mem cards i hi3)
    · have hlencs : ((fillCardIds cards).map dumpCard).length =
          (csvCandidateCards rows (fcO.getD [0]) (bcO.getD [1]) tc hh sep).length := by
        simp only [List.length_map, fillCardIds, fillCardIdsFrom_length, hclen]
      rw [hlencs]
      rfl

/-- The output document of the C10 witness. -/
def c10OutDoc : InputDoc :=
  dumpDoc
    { cards := fillCardIds [{ id := none, front := "x", back := "y", tags := [] }],
      metadata := some
        { title := "deck", description := csvDescription "deck.csv" 1,
          version := "1.0.0", created_at := none },
      style := some defaultStyle }

/-- C10 witness: the CSV-normalization theorem at a concrete two-row CSV
with a header. -/
theorem c10_csv_normalized_witness :
    c10OutDoc.style = some (some (dumpStyle defaultStyle)) ∧
    ∃ cs, c10OutDoc.cards = some cs ∧ cs ≠ [] := by
  have h := c10_csv_normalized [["a", "b"], ["x", "y"]] "dir/deck.csv" none none none
    none true " " c10OutDoc (by decide)
  obtain ⟨cs, hcs, hne, _, _, hsty, _, _⟩ := h
  exact ⟨hsty, cs, hcs, hne⟩

end FlashcardMCP
